import Mathlib

/-!
Artifex: connection lifecycle primitives.

A shallow embedding of the Go sources `adapter.go`, `lifecycle.go`, `hub.go`,
`subscriber.go`, `shutdown.go` and `ping_pong.go`.

Conventions of the embedding.

* User callbacks (`adapterSend`, spawn hooks, ...) are Go closures with arbitrary side
  effects.  They are embedded as state transformers over an abstract world `W`; a
  callback returning `error` returns `Option Error` (`none` is Go's `nil`).
* Every invocation of a callback is appended to a `trace`, together with the value it
  returned, so that "invoked exactly once", "in order" and "not invoked" are statements
  about the trace.
* A Go runtime panic (closing a closed channel, a negative `sync.WaitGroup` counter) is an
  `Except.error` carrying a `Panic`.
* Goroutines are entries of a pending-task list; a schedule is a list of actions that
  picks which task (or which caller) moves next.
-/

namespace Artifex

/-! ## Errors and runtime primitives -/

/-- Modelled from the spec: the error values `ErrClosed`, `ErrInvalidParameter` and the
helper `ErrorWrapWithMessage` are used by `adapter.go`, `hub.go` and `subscriber.go` but
declared in a file that is not part of the sources.  The spec's taxonomy names a *Closed*
error and an *InvalidConfiguration* error; `wrapWithMessage` keeps the wrapped error so that
`errors.Is` still recognises it; `other` stands for any transport or hook error. -/
inductive Error where
  | ErrClosed : Error
  | ErrInvalidParameter : Error
  | wrapWithMessage (err : Error) (msg : String) : Error
  | other (text : String) : Error
  deriving DecidableEq, Repr

/-- Modelled from the spec: `ErrorWrapWithMessage(err, msg)`, absent from the sources. -/
def ErrorWrapWithMessage (err : Error) (msg : String) : Error :=
  Error.wrapWithMessage err msg

/-- The test `errors.Is(err, ErrClosed)`: the Closed error, possibly wrapped. -/
def Error.isClosed : Error → Bool
  | Error.ErrClosed => true
  | Error.wrapWithMessage err _ => err.isClosed
  | _ => false

/-- Go runtime panics that the modelled code can raise. -/
inductive Panic where
  | closeOfClosedChannel : Panic
  | closeOfNilChannel : Panic
  | negativeWaitGroupCounter : Panic
  | nilFunctionCall : Panic
  | indexOutOfRange : Panic
  deriving DecidableEq, Repr

/-- A `chan struct{}` on which nothing is ever sent: it is either open or closed. -/
inductive Chan where
  | isOpen : Chan
  | isClosed : Chan
  deriving DecidableEq, Repr

/-- The builtin `close(ch)`: closing a closed channel panics. -/
def Chan.close : Chan → Except Panic Chan
  | Chan.isOpen => Except.ok Chan.isClosed
  | Chan.isClosed => Except.error Panic.closeOfClosedChannel

/-! ## Adapter (`adapter.go`) -/

/-- What an Adapter does to its collaborators, in program order. -/
inductive AdapterEvent (Ingress Egress : Type) where
  | hubRemoveOne : AdapterEvent Ingress Egress
  | lifecycleAsyncTerminate : AdapterEvent Ingress Egress
  | closeWaitStop : AdapterEvent Ingress Egress
  | adapterStop (result : Option Error) : AdapterEvent Ingress Egress
  | lifecycleWait : AdapterEvent Ingress Egress
  | adapterSend (msg : Egress) (result : Option Error) : AdapterEvent Ingress Egress
  | adapterRecv (result : Except Error Ingress) : AdapterEvent Ingress Egress
  | handleRecv (msg : Ingress) (result : Option Error) : AdapterEvent Ingress Egress

/-- The struct `Adapter[Ingress, Egress]`.

The fields `hub`, `lifecycleAsyncTerminate` and `lifecycleWait` stand for code that is not
in the sources (the `AdapterHub` implementation behind `hub.RemoveOne`, and the methods
`asyncTerminate` and `wait` of the adapter's lifecycle): they are parameters, arbitrary
effects on the world.  `hub = none` is Go's `adp.hub == nil`.  The mutex `mu` has no
field: the functions below are the sequential executions of the methods. -/
structure Adapter (W Ingress Egress : Type) where
  handleRecv : W → Ingress → W × Option Error
  adapterRecv : W → W × Except Error Ingress
  adapterSend : W → Egress → W × Option Error
  adapterStop : W → W × Option Error
  hub : Option (W → W)
  lifecycleAsyncTerminate : W → W
  lifecycleWait : W → W
  isStopped : Bool
  waitStop : Chan
  world : W
  trace : List (AdapterEvent Ingress Egress)

variable {W Ingress Egress : Type}

/-- `func (adp *Adapter) IsStopped() bool`. -/
def Adapter.IsStopped (adp : Adapter W Ingress Egress) : Bool :=
  adp.isStopped

/-- `func (adp *Adapter) WaitStop() chan struct{}`. -/
def Adapter.WaitStop (adp : Adapter W Ingress Egress) : Chan :=
  adp.waitStop

/-- The part of `Stop` before `defer adp.mu.Unlock()`:
`if adp.hub != nil { adp.hub.RemoveOne(...) }`. -/
def Adapter.deregister (adp : Adapter W Ingress Egress) : Adapter W Ingress Egress :=
  match adp.hub with
  | none => adp
  | some removeOne =>
    { adp with world := removeOne adp.world,
               trace := adp.trace ++ [AdapterEvent.hubRemoveOne] }

/-- `func (adp *Adapter) Stop() error`. -/
def Adapter.Stop (adp : Adapter W Ingress Egress) :
    Except Panic (Adapter W Ingress Egress × Option Error) :=
  if adp.isStopped then
    Except.ok (adp, some (ErrorWrapWithMessage Error.ErrClosed "Artifex adapter"))
  else
    let adp1 := adp.deregister
    -- adp.lifecycle.asyncTerminate(adp)
    let adp2 := { adp1 with world := adp1.lifecycleAsyncTerminate adp1.world,
                            trace := adp1.trace ++ [AdapterEvent.lifecycleAsyncTerminate] }
    -- adp.isStopped = true
    let adp3 := { adp2 with isStopped := true }
    -- close(adp.waitStop)
    match adp3.waitStop.close with
    | Except.error p => Except.error p
    | Except.ok ch =>
      let adp4 := { adp3 with waitStop := ch,
                              trace := adp3.trace ++ [AdapterEvent.closeWaitStop] }
      -- err := adp.adapterStop(adp)
      let r := adp4.adapterStop adp4.world
      let adp5 := { adp4 with world := r.1,
                              trace := adp4.trace ++ [AdapterEvent.adapterStop r.2] }
      -- adp.lifecycle.wait()
      let adp6 := { adp5 with world := adp5.lifecycleWait adp5.world,
                              trace := adp5.trace ++ [AdapterEvent.lifecycleWait] }
      Except.ok (adp6, r.2)

/-- The loop `for _, egress := range messages` of `Send`. -/
def Adapter.sendLoop (adp : Adapter W Ingress Egress) :
    List Egress → Adapter W Ingress Egress × Option Error
  | [] => (adp, none)
  | egress :: rest =>
    let r := adp.adapterSend adp.world egress
    let adp1 := { adp with world := r.1,
                           trace := adp.trace ++ [AdapterEvent.adapterSend egress r.2] }
    match r.2 with
    | some err => (adp1, some err)
    | none => Adapter.sendLoop adp1 rest

/-- `func (adp *Adapter) Send(messages ...*Egress) error`. -/
def Adapter.Send (adp : Adapter W Ingress Egress) (messages : List Egress) :
    Adapter W Ingress Egress × Option Error :=
  if adp.isStopped then
    (adp, some (ErrorWrapWithMessage Error.ErrClosed "Artifex adapter"))
  else
    adp.sendLoop messages

/-- The number of invocations of the bound stop function recorded in a trace. -/
def stopCalls : List (AdapterEvent Ingress Egress) → Nat
  | [] => 0
  | AdapterEvent.adapterStop _ :: rest => stopCalls rest + 1
  | _ :: rest => stopCalls rest

/-- The number of Hub deregistrations recorded in a trace. -/
def removeCalls : List (AdapterEvent Ingress Egress) → Nat
  | [] => 0
  | AdapterEvent.hubRemoveOne :: rest => removeCalls rest + 1
  | _ :: rest => removeCalls rest

/-- The number of invocations of the bound send function recorded in a trace. -/
def sendCalls : List (AdapterEvent Ingress Egress) → Nat
  | [] => 0
  | AdapterEvent.adapterSend _ _ :: rest => sendCalls rest + 1
  | _ :: rest => sendCalls rest

/-- The state invariant of an Adapter: the wait-stop signal is closed exactly when the
stop flag is set (`newAdapter` creates the channel open with the flag false, and only
`Stop` changes either). -/
def Adapter.WF (adp : Adapter W Ingress Egress) : Prop :=
  adp.waitStop = Chan.isClosed ↔ adp.isStopped = true

/-- The events one successful `Stop` appends, given what the stop function returned. -/
def stopEvents (hasHub : Bool) (result : Option Error) : List (AdapterEvent Ingress Egress) :=
  (if hasHub then [AdapterEvent.hubRemoveOne] else []) ++
    [AdapterEvent.lifecycleAsyncTerminate, AdapterEvent.closeWaitStop,
     AdapterEvent.adapterStop result, AdapterEvent.lifecycleWait]

/-- The events of sending `msgs` with the results `results`, pairwise. -/
def sendEvents (msgs : List Egress) (results : List (Option Error)) :
    List (AdapterEvent Ingress Egress) :=
  List.zipWith AdapterEvent.adapterSend msgs results

/-- A concrete Adapter over a counter world, joined to a Hub: sending the message `0`
fails, any other message is added to the counter; stopping adds `100` and fails with a
transport error. -/
def sampleAdapter : Adapter Nat Nat Nat where
  handleRecv := fun w _ => (w, none)
  adapterRecv := fun w => (w, Except.ok w)
  adapterSend := fun w m => if m = 0 then (w, some (Error.other "send")) else (w + m, none)
  adapterStop := fun w => (w + 100, some (Error.other "stop"))
  hub := some (fun w => w + 1000)
  lifecycleAsyncTerminate := fun w => w
  lifecycleWait := fun w => w
  isStopped := false
  waitStop := Chan.isOpen
  world := 0
  trace := []

/-! ## Lifecycle (`lifecycle.go`) -/

/-- What a Lifecycle does, in program order: the run of the spawn hook or exit hook at a
position of its list, with the value the hook returned, and the `close` of the exit
notification channel at an address. -/
inductive LifecycleEvent where
  | spawn (index : Nat) (result : Option Error) : LifecycleEvent
  | exit (index : Nat) (result : Option Error) : LifecycleEvent
  | closeExitNotify (ch : Nat) : LifecycleEvent
  deriving DecidableEq, Repr

/-- The goroutine `go func() { <-life.exitNotify; life.exit() }()` started by `Execute`:
it has not yet evaluated `life.exitNotify`, or it is blocked receiving on the channel it
read there (`none` is a nil channel), or it has run `life.exit()` and returned. -/
inductive WaiterState where
  | notStarted : WaiterState
  | blocked (ch : Option Nat) : WaiterState
  | finished : WaiterState
  deriving DecidableEq, Repr

/-- The struct `Lifecycle`.  Channels made by `Execute` live in `chans`, and `exitNotify`
holds the address of one of them (`none` is nil).  `onceClose` is the done flag of the
`sync.Once`.  `waiters` are the goroutines started by `Execute`. -/
structure Lifecycle (W : Type) where
  spawnHandlers : List (W → W × Option Error)
  exitHandlers : List (W → W × Option Error)
  exitNotify : Option Nat
  onceClose : Bool
  chans : List Chan
  waiters : List WaiterState
  world : W
  trace : List LifecycleEvent

/-- `func (life *Lifecycle) AddSpawnHandler(spawnHandlers ...func() error)`. -/
def Lifecycle.AddSpawnHandler (life : Lifecycle W) (spawnHandlers : List (W → W × Option Error)) :
    Lifecycle W :=
  { life with spawnHandlers := life.spawnHandlers ++ spawnHandlers }

/-- `func (life *Lifecycle) AddExitHandler(exitHandlers ...func() error)`. -/
def Lifecycle.AddExitHandler (life : Lifecycle W) (exitHandlers : List (W → W × Option Error)) :
    Lifecycle W :=
  { life with exitHandlers := life.exitHandlers ++ exitHandlers }

/-- The loop `for _, action := range life.exitHandlers { action() }` from position
`index` on: the results are dropped. -/
def Lifecycle.exitFrom (life : Lifecycle W) (index : Nat) :
    List (W → W × Option Error) → Lifecycle W
  | [] => life
  | action :: rest =>
    let r := action life.world
    Lifecycle.exitFrom
      { life with world := r.1, trace := life.trace ++ [LifecycleEvent.exit index r.2] }
      (index + 1) rest

/-- `func (life *Lifecycle) exit()`. -/
def Lifecycle.exit (life : Lifecycle W) : Lifecycle W :=
  if life.exitHandlers.length = 0 then life
  else life.exitFrom 0 life.exitHandlers

/-- The loop `for _, enter := range life.spawnHandlers` from position `index` on. -/
def Lifecycle.spawnFrom (life : Lifecycle W) (index : Nat) :
    List (W → W × Option Error) → Lifecycle W × Option Error
  | [] => (life, none)
  | enter :: rest =>
    let r := enter life.world
    let life1 := { life with world := r.1,
                             trace := life.trace ++ [LifecycleEvent.spawn index r.2] }
    match r.2 with
    | some err => (life1.exit, some err)
    | none => Lifecycle.spawnFrom life1 (index + 1) rest

/-- `func (life *Lifecycle) spawn() error`. -/
def Lifecycle.spawn (life : Lifecycle W) : Lifecycle W × Option Error :=
  if life.spawnHandlers.length = 0 then (life, none)
  else life.spawnFrom 0 life.spawnHandlers

/-- `func (life *Lifecycle) Execute() error`. -/
def Lifecycle.Execute (life : Lifecycle W) : Lifecycle W × Option Error :=
  let r := life.spawn
  match r.2 with
  | some err => (r.1, some err)
  | none =>
    if r.1.exitHandlers.length = 0 then (r.1, none)
    else
      -- life.exitNotify = make(chan struct{}); life.onceClose = sync.Once{}; go func() ...
      ({ r.1 with exitNotify := some r.1.chans.length,
                  chans := r.1.chans ++ [Chan.isOpen],
                  onceClose := false,
                  waiters := r.1.waiters ++ [WaiterState.notStarted] }, none)

/-- `func (life *Lifecycle) NotifyExit()`. -/
def Lifecycle.NotifyExit (life : Lifecycle W) : Except Panic (Lifecycle W) :=
  match life.exitNotify with
  | none => Except.ok life
  | some c =>
    if life.onceClose then Except.ok life
    else
      match life.chans.get? c with
      | none => Except.error Panic.closeOfNilChannel
      | some ch =>
        match ch.close with
        | Except.error p => Except.error p
        | Except.ok ch1 =>
          Except.ok { life with chans := life.chans.set c ch1,
                                onceClose := true,
                                trace := life.trace ++ [LifecycleEvent.closeExitNotify c] }

/-- The receive `<-ch` of waiter `i` followed by `life.exit()`: on a closed channel the
receive returns and the exit hooks run; on an open or nil channel the waiter stays
blocked. -/
def Lifecycle.receive (life : Lifecycle W) (i : Nat) (ch : Option Nat) : Lifecycle W :=
  match ch.bind life.chans.get? with
  | some Chan.isClosed =>
    { life.exit with waiters := life.waiters.set i WaiterState.finished }
  | _ => { life with waiters := life.waiters.set i (WaiterState.blocked ch) }

/-- One scheduling of waiter `i`. -/
def Lifecycle.waiterStep (life : Lifecycle W) (i : Nat) : Lifecycle W :=
  match life.waiters.get? i with
  | none => life
  | some WaiterState.finished => life
  | some WaiterState.notStarted => life.receive i life.exitNotify
  | some (WaiterState.blocked ch) => life.receive i ch

/-- What can happen to a Lifecycle after `Execute`: a caller invokes `NotifyExit`, or the
scheduler runs the waiter goroutine number `i`. -/
inductive LifecycleAction where
  | notifyExit : LifecycleAction
  | waiter (i : Nat) : LifecycleAction
  deriving DecidableEq, Repr

/-- One action on a Lifecycle. -/
def Lifecycle.step (life : Lifecycle W) : LifecycleAction → Except Panic (Lifecycle W)
  | LifecycleAction.notifyExit => life.NotifyExit
  | LifecycleAction.waiter i => Except.ok (life.waiterStep i)

/-- A schedule of actions, left to right; a panic ends the run. -/
def Lifecycle.run (life : Lifecycle W) : List LifecycleAction → Except Panic (Lifecycle W)
  | [] => Except.ok life
  | act :: rest =>
    match life.step act with
    | Except.error p => Except.error p
    | Except.ok life1 => Lifecycle.run life1 rest

/-- The positions of the exit hooks run in a trace, in the order they ran. -/
def exitRuns : List LifecycleEvent → List Nat
  | [] => []
  | LifecycleEvent.exit index _ :: rest => index :: exitRuns rest
  | _ :: rest => exitRuns rest

/-- The number of `close` operations on a notification channel in a trace. -/
def closeCalls : List LifecycleEvent → Nat
  | [] => 0
  | LifecycleEvent.closeExitNotify _ :: rest => closeCalls rest + 1
  | _ :: rest => closeCalls rest

/-- Whether a schedule runs waiter `0` at some point after a `NotifyExit`. -/
def wakesAfterNotify : List LifecycleAction → Bool
  | [] => false
  | LifecycleAction.notifyExit :: rest => rest.contains (LifecycleAction.waiter 0)
  | _ :: rest => wakesAfterNotify rest

/-- A new Lifecycle over a counter world with two spawn hooks and two exit hooks: the
first spawn hook adds `1`, the second fails when the counter is odd; the exit hooks add
`10` and `20`, the first of them returning an error. -/
def sampleLifecycle : Lifecycle Nat where
  spawnHandlers := [fun w => (w + 1, none),
                    fun w => if w % 2 = 1 then (w, some (Error.other "spawn")) else (w, none)]
  exitHandlers := [fun w => (w + 10, some (Error.other "exit")), fun w => (w + 20, none)]
  exitNotify := none
  onceClose := false
  chans := []
  waiters := []
  world := 0
  trace := []

/-- The sample Lifecycle with a world in which both spawn hooks succeed. -/
def sampleLifecycleOk : Lifecycle Nat :=
  { sampleLifecycle with world := 1 }

/-- The events of running, from position `index` on, exit hooks that returned `results`. -/
def exitEvents (index : Nat) (results : List (Option Error)) : List LifecycleEvent :=
  List.zipWith LifecycleEvent.exit (List.range' index results.length) results

/-- The events of `count` successful spawn hooks from position `index` on. -/
def spawnOkEvents (index count : Nat) : List LifecycleEvent :=
  (List.range' index count).map (fun i => LifecycleEvent.spawn i none)

/-- Two Lifecycle states with the same hooks, channel, once flag and goroutines: they
differ at most in the world and the trace. -/
def Lifecycle.sameControl (a b : Lifecycle W) : Prop :=
  a.spawnHandlers = b.spawnHandlers ∧ a.exitHandlers = b.exitHandlers ∧
  a.exitNotify = b.exitNotify ∧ a.onceClose = b.onceClose ∧
  a.chans = b.chans ∧ a.waiters = b.waiters

/-- A Lifecycle after a successful `Execute` with exit hooks, seen from its only waiter:
the notification channel is at address `c`, and the waiter has not run the exit hooks yet
(it has not started, or it is blocked on that channel). -/
def Lifecycle.Armed (life : Lifecycle W) (c : Nat) : Prop :=
  life.exitNotify = some c ∧
  (life.waiters = [WaiterState.notStarted] ∨ life.waiters = [WaiterState.blocked (some c)])

/-! ## Hub (`hub.go`) -/

/-- What a Hub does to its collaborators, in program order: a call of the adapter factory
(and whether it succeeded), the run of the spawn hook or exit hook at a position of its
list on a session, and the call `sess.Stop()`. -/
inductive HubEvent (S : Type) where
  | newAdapter (ok : Bool) : HubEvent S
  | spawnHook (index : Nat) (sess : S) (result : Option Error) : HubEvent S
  | exitHook (index : Nat) (sess : S) : HubEvent S
  | sessStop (sess : S) : HubEvent S
  deriving DecidableEq, Repr

/-- The goroutines a Hub starts.  `stopExit sess` is the body
`defer wg.Done(); hub.exit(session)` started by `Stop`; `listener sess` is the goroutine of
`Connect`, which runs `hub.exit(sess)` under the lock once `sess.Listen()` has returned. -/
inductive HubTask (S : Type) where
  | stopExit (sess : S) : HubTask S
  | listener (sess : S) : HubTask S
  deriving DecidableEq, Repr

/-- The struct `Artist[Subject, rMessage, sMessage]`.

`sessions` holds the keys of the Go map (a set), in the order in which a `range` over the
map visits them.  `wg` is the counter of the `sync.WaitGroup` local to `Stop` (only one
call of `Stop` gets past the stop flag).  `tasks` are the goroutines started so far, each
with a flag telling whether it has run to its end.  The type `Session` is not in the
sources: sessions are values of a type `S`, and `sessionStop` is the effect of
`sess.Stop()` on the world, a parameter. -/
structure Artist (W S : Type) where
  isStop : Bool
  sessions : List S
  concurrencyQty : Int
  spawnHandlers : List (W → S → W × Option Error)
  exitHandlers : List (W → S → W)
  sessionStop : W → S → W
  wg : Int
  tasks : List (HubTask S × Bool)
  world : W
  trace : List (HubEvent S)

variable {S : Type} [DecidableEq S]

/-- The loop `for _, action := range hub.exitHandlers { action(sess) }` from position
`index` on. -/
def Artist.exitFrom (hub : Artist W S) (sess : S) (index : Nat) :
    List (W → S → W) → Artist W S
  | [] => hub
  | action :: rest =>
    Artist.exitFrom
      { hub with world := action hub.world sess,
                 trace := hub.trace ++ [HubEvent.exitHook index sess] }
      sess (index + 1) rest

/-- `func (hub *Artist) exit(sess *Session)`: the deferred `sess.Stop()` runs last. -/
def Artist.exit (hub : Artist W S) (sess : S) : Artist W S :=
  -- delete(hub.sessions, sess)
  let hub1 := { hub with sessions := hub.sessions.filter (fun s => s ≠ sess) }
  let hub2 := hub1.exitFrom sess 0 hub1.exitHandlers
  { hub2 with world := hub2.sessionStop hub2.world sess,
              trace := hub2.trace ++ [HubEvent.sessStop sess] }

/-- The loop `for _, action := range hub.spawnHandlers` from position `index` on. -/
def Artist.spawnFrom (hub : Artist W S) (sess : S) (index : Nat) :
    List (W → S → W × Option Error) → Artist W S × Option Error
  | [] => (hub, none)
  | action :: rest =>
    let r := action hub.world sess
    let hub1 := { hub with world := r.1,
                           trace := hub.trace ++ [HubEvent.spawnHook index sess r.2] }
    match r.2 with
    | some err => (hub1, some err)
    | none => Artist.spawnFrom hub1 sess (index + 1) rest

/-- `func (hub *Artist) spawn(sess *Session) error`. -/
def Artist.spawn (hub : Artist W S) (sess : S) : Artist W S × Option Error :=
  -- hub.sessions[sess] = true
  let hub1 := { hub with sessions := if sess ∈ hub.sessions then hub.sessions
                                     else hub.sessions ++ [sess] }
  hub1.spawnFrom sess 0 hub1.spawnHandlers

/-- `func (hub *Artist) Connect(newAdapter NewAdapterFunc) (*Session, error)`.  The
factory `newAdapter` acts on the world; `NewSession` is not in the sources and is a
parameter. -/
def Artist.Connect {A : Type} (hub : Artist W S) (newAdapter : W → W × Except Error A)
    (NewSession : A → Except Error S) : Artist W S × Except Error S :=
  if hub.isStop then
    (hub, Except.error (ErrorWrapWithMessage Error.ErrClosed "Artifex hub"))
  else
    let r := newAdapter hub.world
    match r.2 with
    | Except.error err =>
      ({ hub with world := r.1, trace := hub.trace ++ [HubEvent.newAdapter false] },
        Except.error err)
    | Except.ok adapter =>
      let hub1 := { hub with world := r.1, trace := hub.trace ++ [HubEvent.newAdapter true] }
      match NewSession adapter with
      | Except.error err => (hub1, Except.error err)
      | Except.ok sess =>
        let r2 := hub1.spawn sess
        match r2.2 with
        | some err => (r2.1.exit sess, Except.error err)
        | none =>
          -- go func() { defer func() { hub.exit(sess) }(); sess.Listen() }()
          ({ r2.1 with tasks := r2.1.tasks ++ [(HubTask.listener sess, false)] },
            Except.ok sess)

/-- `wg.Done()`: a counter that would drop below zero panics. -/
def Artist.wgDone (hub : Artist W S) : Except Panic (Artist W S) :=
  if hub.wg - 1 < 0 then Except.error Panic.negativeWaitGroupCounter
  else Except.ok { hub with wg := hub.wg - 1 }

/-- `func (hub *Artist) Stop()`, up to its last statement `wg.Done()`; the goroutines it
starts are left in `tasks` for the scheduler. -/
def Artist.Stop (hub : Artist W S) : Except Panic (Artist W S) :=
  if hub.isStop then Except.ok hub
  else
    -- hub.isStop.Store(true); wg := sync.WaitGroup{}
    -- for sess := range hub.sessions { wg.Add(1); go func() { ... }() }
    let hub1 := { hub with isStop := true,
                           wg := (hub.sessions.length : Int),
                           tasks := hub.tasks ++
                             hub.sessions.map (fun sess => (HubTask.stopExit sess, false)) }
    -- wg.Done()
    hub1.wgDone

/-- The scheduler runs goroutine `i` to its end. -/
def Artist.runTask (hub : Artist W S) (i : Nat) : Except Panic (Artist W S) :=
  match hub.tasks.get? i with
  | none => Except.ok hub
  | some (_, true) => Except.ok hub
  | some (HubTask.listener sess, false) =>
    Except.ok { hub.exit sess with tasks := hub.tasks.set i (HubTask.listener sess, true) }
  | some (HubTask.stopExit sess, false) =>
    ({ hub.exit sess with tasks := hub.tasks.set i (HubTask.stopExit sess, true) }).wgDone

/-- What can happen to a Hub: a caller invokes `Stop`, or the scheduler runs goroutine
`i` (for a listener: its `Listen` has returned). -/
inductive HubAction where
  | stop : HubAction
  | task (i : Nat) : HubAction
  deriving DecidableEq, Repr

/-- One action on a Hub. -/
def Artist.step (hub : Artist W S) : HubAction → Except Panic (Artist W S)
  | HubAction.stop => hub.Stop
  | HubAction.task i => hub.runTask i

/-- A schedule of actions, left to right; a panic ends the run. -/
def Artist.run (hub : Artist W S) : List HubAction → Except Panic (Artist W S)
  | [] => Except.ok hub
  | act :: rest =>
    match hub.step act with
    | Except.error p => Except.error p
    | Except.ok hub1 => Artist.run hub1 rest

/-- The goroutines of a Hub that have been started and have not run to their end. -/
def Artist.pending (hub : Artist W S) : List (HubTask S) :=
  (hub.tasks.filter (fun t => !t.2)).map (fun t => t.1)

/-- `func (hub *Artist) DoSyncAction(action func(*Session) (stop bool))`, from the rest of
the iteration on: the callback acts on the variables `T` it captures. -/
def doSyncLoop {T : Type} (action : T → S → T × Bool) (value : T) : List S → T
  | [] => value
  | sess :: rest =>
    let r := action value sess
    if r.2 then r.1 else doSyncLoop action r.1 rest

/-- `func (hub *Artist) DoSyncAction(action func(*Session) (stop bool))`. -/
def Artist.DoSyncAction {T : Type} (hub : Artist W S) (action : T → S → T × Bool)
    (value : T) : T :=
  if hub.isStop then value
  else doSyncLoop action value hub.sessions

/-- `func (hub *Artist) FindSessions(filter) (sessions []*Session, found bool)`. -/
def Artist.FindSessions (hub : Artist W S) (filter : S → Bool) : List S × Bool :=
  let sessions := hub.DoSyncAction
    (fun (acc : List S) sess => (if filter sess then acc ++ [sess] else acc, false)) []
  (sessions, decide (sessions.length > 0))

/-- `func (hub *Artist) Count(filter) int`. -/
def Artist.Count (hub : Artist W S) (filter : S → Bool) : Nat :=
  hub.DoSyncAction (fun (cnt : Nat) sess => (if filter sess then cnt + 1 else cnt, false)) 0

/-- `func (hub *Artist) Total() int`. -/
def Artist.Total (hub : Artist W S) : Nat :=
  hub.sessions.length

/-! ### `DoAsyncAction`: the fan-out and its goroutines -/

/-- Where a goroutine of `DoAsyncAction` stands: started by `go` and not yet scheduled;
inside `action(session)`; past the callback and at the deferred receive `<-bucket`; or
returned. -/
inductive AsyncPhase where
  | spawned : AsyncPhase
  | running : AsyncPhase
  | releasing : AsyncPhase
  | finished : AsyncPhase
  deriving DecidableEq, Repr

/-- One call of `DoAsyncAction` in progress.  `todo` are the members the `range` loop has
not reached; `chans` are the channels made by `make(chan struct{}, concurrencyQty)` so far,
each given by the number of items in its buffer; `bucket` is the variable `bucket`, the
address of the channel it refers to (`none` is nil); `tasks` are the goroutines started;
`returned` tells that `DoAsyncAction` has returned to its caller; `value` holds what the
callback captures and assigns. -/
structure AsyncRun (S T : Type) where
  concurrencyQty : Int
  todo : List S
  chans : List Nat
  bucket : Option Nat
  tasks : List (S × AsyncPhase)
  returned : Bool
  value : T

/-- The moves of a call of `DoAsyncAction`: the caller executes one iteration of the loop
(or returns when the loop is over); goroutine `i` enters its callback; goroutine `i`
leaves its callback; goroutine `i` executes its deferred `<-bucket`. -/
inductive AsyncAction where
  | loop : AsyncAction
  | start (i : Nat) : AsyncAction
  | finish (i : Nat) : AsyncAction
  | release (i : Nat) : AsyncAction
  deriving DecidableEq, Repr

/-- `func (hub *Artist) DoAsyncAction(action func(*Session))` at its entry: a stopped Hub
returns at once. -/
def Artist.DoAsyncAction {T : Type} (hub : Artist W S) (value : T) : AsyncRun S T :=
  if hub.isStop then
    { concurrencyQty := hub.concurrencyQty, todo := [], chans := [], bucket := none,
      tasks := [], returned := true, value := value }
  else
    { concurrencyQty := hub.concurrencyQty, todo := hub.sessions, chans := [], bucket := none,
      tasks := [], returned := false, value := value }

/-- One iteration of `for sess := range hub.sessions` in `DoAsyncAction`. -/
def AsyncRun.loopStep {T : Type} (st : AsyncRun S T) : AsyncRun S T :=
  if st.returned then st
  else
    match st.todo with
    | [] => { st with returned := true }
    | sess :: rest =>
      if st.concurrencyQty ≤ 0 then
        -- go action(session); continue
        { st with todo := rest, tasks := st.tasks ++ [(sess, AsyncPhase.spawned)] }
      else
        -- bucket = make(chan struct{}, hub.concurrencyQty): a new channel, buffer empty
        -- bucket <- struct{}{}: the capacity is at least 1, the send puts one item
        -- go func() { defer func() { <-bucket }(); action(session) }()
        { st with todo := rest, chans := st.chans ++ [1], bucket := some st.chans.length,
                  tasks := st.tasks ++ [(sess, AsyncPhase.spawned)] }

/-- The receive `<-bucket` of goroutine `i` on the channel the variable `bucket` refers to
now: it takes an item if the buffer has one and blocks otherwise. -/
def AsyncRun.releaseStep {T : Type} (st : AsyncRun S T) (i : Nat) (sess : S) : AsyncRun S T :=
  match st.bucket with
  | none => st
  | some addr =>
    match st.chans.get? addr with
    | some (n + 1) =>
      { st with chans := st.chans.set addr n,
                tasks := st.tasks.set i (sess, AsyncPhase.finished) }
    | _ => st

/-- One move of a call of `DoAsyncAction` with callback `action`. -/
def AsyncRun.step {T : Type} (action : T → S → T) (st : AsyncRun S T) :
    AsyncAction → AsyncRun S T
  | AsyncAction.loop => st.loopStep
  | AsyncAction.start i =>
    match st.tasks.get? i with
    | some (sess, AsyncPhase.spawned) =>
      { st with tasks := st.tasks.set i (sess, AsyncPhase.running) }
    | _ => st
  | AsyncAction.finish i =>
    match st.tasks.get? i with
    | some (sess, AsyncPhase.running) =>
      { st with value := action st.value sess,
                tasks := st.tasks.set i
                  (sess, if st.concurrencyQty ≤ 0 then AsyncPhase.finished
                         else AsyncPhase.releasing) }
    | _ => st
  | AsyncAction.release i =>
    match st.tasks.get? i with
    | some (sess, AsyncPhase.releasing) => st.releaseStep i sess
    | _ => st

/-- A schedule of moves, left to right. -/
def AsyncRun.run {T : Type} (action : T → S → T) (st : AsyncRun S T) :
    List AsyncAction → AsyncRun S T
  | [] => st
  | act :: rest => AsyncRun.run action (st.step action act) rest

/-- The caller alone runs `fuel` more iterations of the loop. -/
def AsyncRun.loopAlone {T : Type} (st : AsyncRun S T) : Nat → AsyncRun S T
  | 0 => st
  | fuel + 1 => AsyncRun.loopAlone st.loopStep fuel

/-- A schedule of moves up to the moment `DoAsyncAction` returns to its caller: the moves
after that moment are not taken, and if the schedule ends before the loop is over the
caller finishes the loop alone (`todo.length + 1` iterations are enough). -/
def AsyncRun.untilReturn {T : Type} (action : T → S → T) (st : AsyncRun S T) :
    List AsyncAction → AsyncRun S T
  | [] => st.loopAlone (st.todo.length + 1)
  | act :: rest =>
    if st.returned then st
    else AsyncRun.untilReturn action (st.step action act) rest

/-- The number of goroutines that are inside their callback. -/
def AsyncRun.runningCount {T : Type} (st : AsyncRun S T) : Nat :=
  (st.tasks.filter (fun t => t.2 = AsyncPhase.running)).length

/-- `func (hub *Artist) FindSession(filter) (session *Session, found bool)`: the callback
assigns the captured variable `target`; `target` is read when `DoAsyncAction` returns,
under the schedule `sched` of the caller and the goroutines. -/
def Artist.FindSession (hub : Artist W S) (filter : S → Bool) (sched : List AsyncAction) :
    Option S × Bool :=
  let action := fun (target : Option S) (sess : S) => if filter sess then some sess else target
  let st := (hub.DoAsyncAction (none : Option S)).untilReturn action sched
  (st.value, st.value.isSome)

/-! ### Sample Hubs -/

/-- A running Hub without members over a counter world, with one spawn hook and one exit
hook (each adds the session number to the counter). -/
def sampleHub : Artist Nat Nat where
  isStop := false
  sessions := []
  concurrencyQty := 1
  spawnHandlers := [fun w sess => (w + sess, none)]
  exitHandlers := [fun w sess => w + sess]
  sessionStop := fun w _ => w
  wg := 0
  tasks := []
  world := 0
  trace := []

/-- The factory of the sample connections: it makes the adapter `n`. -/
def sampleFactory (n : Nat) : Nat → Nat × Except Error Nat :=
  fun w => (w, Except.ok n)

/-- The sample `NewSession`: the session of adapter `n` is `n`. -/
def sampleNewSession : Nat → Except Error Nat :=
  fun n => Except.ok n

/-- The sample Hub after `Connect` of session `7`. -/
def sampleHub1 : Artist Nat Nat :=
  (sampleHub.Connect (sampleFactory 7) sampleNewSession).1

/-- The sample Hub after `Connect` of session `7` and then of session `8`. -/
def sampleHub2 : Artist Nat Nat :=
  (sampleHub1.Connect (sampleFactory 8) sampleNewSession).1

/-- The panic a run ended with, if it did. -/
def panicOf {α : Type} : Except Panic α → Option Panic
  | Except.error p => some p
  | Except.ok _ => none

/-- The events of one run of the Hub's exit hooks on a session followed by the call of
the session's `Stop`. -/
def exitPathEvents (count : Nat) (sess : S) : List (HubEvent S) :=
  (List.range' 0 count).map (fun i => HubEvent.exitHook i sess) ++ [HubEvent.sessStop sess]

/-! ## Adapter: concurrent calls of `Stop`, and the receive loop -/

/-- The critical section with which `Stop` ends, from `adp.lifecycle.asyncTerminate(adp)`
to the deferred `adp.mu.Unlock()`; it does not read the stop flag. -/
def Adapter.stopLocked (adp : Adapter W Ingress Egress) :
    Except Panic (Adapter W Ingress Egress × Option Error) :=
  -- adp.lifecycle.asyncTerminate(adp); adp.isStopped = true
  let adp1 := { adp with world := adp.lifecycleAsyncTerminate adp.world,
                         trace := adp.trace ++ [AdapterEvent.lifecycleAsyncTerminate],
                         isStopped := true }
  -- close(adp.waitStop)
  match adp1.waitStop.close with
  | Except.error p => Except.error p
  | Except.ok ch =>
    let adp2 := { adp1 with waitStop := ch,
                            trace := adp1.trace ++ [AdapterEvent.closeWaitStop] }
    -- err := adp.adapterStop(adp); adp.lifecycle.wait(); return err
    let r := adp2.adapterStop adp2.world
    Except.ok
      ({ adp2 with world := adp2.lifecycleWait r.1,
                   trace := adp2.trace ++ [AdapterEvent.adapterStop r.2,
                                           AdapterEvent.lifecycleWait] }, r.2)

/-- Where one call of `Stop` stands between its atomic steps: before `adp.mu.Lock()`;
past the check of the stop flag, with the lock released for the Hub (`adp.mu.Unlock()`
done, `adp.hub.RemoveOne` not yet called); back from `RemoveOne` and before the second
`adp.mu.Lock()`; or returned with a result. -/
inductive StopPc where
  | entry : StopPc
  | unlocked : StopPc
  | removed : StopPc
  | returned (result : Option Error) : StopPc
  deriving DecidableEq, Repr

/-- An Adapter together with the calls of `Stop` in progress on it. -/
structure StopRace (W Ingress Egress : Type) where
  adp : Adapter W Ingress Egress
  calls : List StopPc

/-- The call number `i` of `Stop` takes its next atomic step.  Each step is a whole
critical section of `mu`, or the call of `RemoveOne` made with the lock released, so the
lock is free between steps. -/
def StopRace.step (race : StopRace W Ingress Egress) (i : Nat) :
    Except Panic (StopRace W Ingress Egress) :=
  match race.calls.get? i with
  | none => Except.ok race
  | some (StopPc.returned _) => Except.ok race
  | some StopPc.entry =>
    -- adp.mu.Lock(); if adp.isStopped { adp.mu.Unlock(); return ErrClosed }
    if race.adp.isStopped then
      Except.ok
        { race with
          calls := race.calls.set i (StopPc.returned
            (some (ErrorWrapWithMessage Error.ErrClosed "Artifex adapter"))) }
    else
      match race.adp.hub with
      | some _ =>
        -- if adp.hub != nil { adp.mu.Unlock()
        Except.ok { race with calls := race.calls.set i StopPc.unlocked }
      | none =>
        match race.adp.stopLocked with
        | Except.error p => Except.error p
        | Except.ok r =>
          Except.ok { adp := r.1, calls := race.calls.set i (StopPc.returned r.2) }
  | some StopPc.unlocked =>
    -- adp.hub.RemoveOne(...)
    Except.ok { adp := race.adp.deregister, calls := race.calls.set i StopPc.removed }
  | some StopPc.removed =>
    -- adp.mu.Lock() }; defer adp.mu.Unlock(); ...
    match race.adp.stopLocked with
    | Except.error p => Except.error p
    | Except.ok r =>
      Except.ok { adp := r.1, calls := race.calls.set i (StopPc.returned r.2) }

/-- A schedule: the numbers of the calls that move, left to right; a panic ends the run. -/
def StopRace.run (race : StopRace W Ingress Egress) :
    List Nat → Except Panic (StopRace W Ingress Egress)
  | [] => Except.ok race
  | i :: rest =>
    match race.step i with
    | Except.error p => Except.error p
    | Except.ok race1 => StopRace.run race1 rest

/-- The number of `close(adp.waitStop)` that succeeded, recorded in a trace. -/
def waitStopCloses : List (AdapterEvent Ingress Egress) → Nat
  | [] => 0
  | AdapterEvent.closeWaitStop :: rest => waitStopCloses rest + 1
  | _ :: rest => waitStopCloses rest

/-- `func (adp *Adapter) listen() error`.

`fuel` bounds the number of iterations (`none` is a loop still running).  The stop flag
is written by other tasks while `adapterRecv` blocks: `stops` tells, for each call of
`adapterRecv` in turn, whether another task runs `Stop` to its end between the return of
that call and the test `if adp.isStopped` that follows it. -/
def Adapter.listen (adp : Adapter W Ingress Egress) :
    Nat → List Bool → Except Panic (Option (Adapter W Ingress Egress × Option Error))
  | 0, _ => Except.ok none
  | fuel + 1, stops =>
    -- for !adp.isStopped {
    if adp.isStopped then Except.ok (some (adp, none))
    else
      -- ingress, err := adp.adapterRecv(adp)
      let r := adp.adapterRecv adp.world
      let adp1 := { adp with world := r.1,
                             trace := adp.trace ++ [AdapterEvent.adapterRecv r.2] }
      match (if stops.head? = some true then adp1.Stop else Except.ok (adp1, none)) with
      | Except.error p => Except.error p
      | Except.ok other =>
        let adp2 := other.1
        -- if adp.isStopped { return nil }
        if adp2.isStopped then Except.ok (some (adp2, none))
        else
          match r.2 with
          -- if err != nil { return err }
          | Except.error err => Except.ok (some (adp2, some err))
          -- adp.handleRecv(ingress, nil)
          | Except.ok ingress =>
            let h := adp2.handleRecv adp2.world ingress
            Adapter.listen
              { adp2 with world := h.1,
                          trace := adp2.trace ++ [AdapterEvent.handleRecv ingress h.2] }
              fuel stops.tail

deriving instance DecidableEq for Except

/-- What a Subscriber does to its callbacks, in program order, with what they returned. -/
inductive SubscriberEvent (M : Type) where
  | adapterRecv (result : Except Error M) : SubscriberEvent M
  | handleRecv (msg : M) (result : Option Error) : SubscriberEvent M
  | adapterStop (result : Option Error) : SubscriberEvent M
  deriving DecidableEq, Repr

/-- The struct `Subscriber[rMessage]`.  A callback field that is nil in Go is `none`.  The
world the callbacks act on is the world of the embedded `Lifecycle`.  `appDataMade` tells
whether `AppData` is a non-nil map; `onceInit` is the done flag of the `sync.Once`; the
fields `Identifier` and `Mutex` play no part in the methods below. -/
structure Subscriber (W M : Type) where
  HandleRecv : Option (W → M → W × Option Error)
  AdapterRecv : Option (W → W × Except Error M)
  AdapterStop : Option (W → W × Option Error)
  Fixup : Option (W → W × Option Error)
  FixupMaxRetrySecond : Int
  appDataMade : Bool
  Lifecycle : Artifex.Lifecycle W
  isStop : Bool
  onceInit : Bool
  trace : List (SubscriberEvent M)

variable {M : Type}

/-- `func (sub *Subscriber) init() error`: the error is a local variable of the call, set
only by the function given to `sub.onceInit.Do`, which runs on the first call alone. -/
def Subscriber.init (sub : Subscriber W M) : Subscriber W M × Option Error :=
  -- var err error; sub.onceInit.Do(func() { ... }); return err
  if sub.onceInit then (sub, none)
  else
    -- err = sub.Lifecycle.Execute(); if err != nil { return }
    let r := sub.Lifecycle.Execute
    let sub1 := { sub with onceInit := true, Lifecycle := r.1 }
    match r.2 with
    | some err => (sub1, some err)
    | none =>
      if sub1.HandleRecv.isNone || sub1.AdapterStop.isNone || sub1.AdapterRecv.isNone then
        (sub1, some (ErrorWrapWithMessage Error.ErrInvalidParameter "subscriber"))
      else
        -- if sub.AppData == nil { sub.AppData = make(maputil.Data) }
        ({ sub1 with appDataMade := true }, none)

/-- `func (sub *Subscriber) IsStop() bool`. -/
def Subscriber.IsStop (sub : Subscriber W M) : Bool :=
  sub.isStop

/-- `func (sub *Subscriber) Stop() error`. -/
def Subscriber.Stop (sub : Subscriber W M) : Except Panic (Subscriber W M × Option Error) :=
  let r := sub.init
  match r.2 with
  | some err => Except.ok (r.1, some err)
  | none =>
    -- if sub.isStop.Load() { return nil }
    if r.1.isStop then Except.ok (r.1, none)
    else
      -- sub.isStop.Store(true); sub.Lifecycle.NotifyExit()
      match r.1.Lifecycle.NotifyExit with
      | Except.error p => Except.error p
      | Except.ok life1 =>
        -- err = sub.AdapterStop()
        match r.1.AdapterStop with
        | none => Except.error Panic.nilFunctionCall
        | some adapterStop =>
          let out := adapterStop life1.world
          Except.ok
            ({ r.1 with isStop := true,
                        Lifecycle := { life1 with world := out.1 },
                        trace := r.1.trace ++ [SubscriberEvent.adapterStop out.2] }, out.2)

/-- `Stop` called a second time, after a first call that returned. -/
def Subscriber.StopAgain (sub : Subscriber W M) :
    Except Panic (Subscriber W M × Option Error) :=
  match sub.Stop with
  | Except.error p => Except.error p
  | Except.ok first => first.1.Stop

/-- `func (sub *Subscriber) listen() error`, with `fuel` and `stops` as for the Adapter:
`stops` tells, for each call of `AdapterRecv` in turn, whether another task runs `Stop`
to its end right after that call returns. -/
def Subscriber.listen (sub : Subscriber W M) :
    Nat → List Bool → Except Panic (Option (Subscriber W M × Option Error))
  | 0, _ => Except.ok none
  | fuel + 1, stops =>
    -- for !sub.isStop.Load() {
    if sub.isStop then Except.ok (some (sub, none))
    else
      -- message, err := sub.AdapterRecv()
      match sub.AdapterRecv with
      | none => Except.error Panic.nilFunctionCall
      | some adapterRecv =>
        let r := adapterRecv sub.Lifecycle.world
        let sub1 := { sub with Lifecycle := { sub.Lifecycle with world := r.1 },
                               trace := sub.trace ++
                                 [SubscriberEvent.adapterRecv r.2] }
        match (if stops.head? = some true then sub1.Stop else Except.ok (sub1, none)) with
        | Except.error p => Except.error p
        | Except.ok other =>
          let sub2 := other.1
          -- if sub.isStop.Load() { return nil }
          if sub2.isStop then Except.ok (some (sub2, none))
          else
            match r.2 with
            -- if err != nil { return err }
            | Except.error err => Except.ok (some (sub2, some err))
            -- sub.HandleRecv(message, nil)
            | Except.ok message =>
              match sub2.HandleRecv with
              | none => Except.error Panic.nilFunctionCall
              | some handleRecv =>
                let h := handleRecv sub2.Lifecycle.world message
                Subscriber.listen
                  { sub2 with Lifecycle := { sub2.Lifecycle with world := h.1 },
                              trace := sub2.trace ++ [SubscriberEvent.handleRecv message h.2] }
                  fuel stops.tail

/-- `func (sub *Subscriber) Listen() error`.  `ReliableTask` is not in the sources: it is
a parameter, given the task `sub.listen` and the Subscriber (which carries the stop
predicate, the retry bound and the fixup). -/
def Subscriber.Listen (sub : Subscriber W M)
    (ReliableTask : (Subscriber W M → Except Panic (Option (Subscriber W M × Option Error))) →
      Subscriber W M → Except Panic (Option (Subscriber W M × Option Error)))
    (fuel : Nat) (stops : List Bool) :
    Except Panic (Option (Subscriber W M × Option Error)) :=
  let r := sub.init
  match r.2 with
  | some err => Except.ok (some (r.1, some err))
  | none =>
    match r.1.Fixup with
    | none => r.1.listen fuel stops
    | some _ => ReliableTask (fun task => task.listen fuel stops) r.1

/-- `Listen` called a second time, after a first call that returned. -/
def Subscriber.ListenAgain (sub : Subscriber W M)
    (ReliableTask : (Subscriber W M → Except Panic (Option (Subscriber W M × Option Error))) →
      Subscriber W M → Except Panic (Option (Subscriber W M × Option Error)))
    (fuel : Nat) (stops : List Bool) :
    Except Panic (Option (Subscriber W M × Option Error)) :=
  match sub.Listen ReliableTask fuel stops with
  | Except.ok (some first) => first.1.Listen ReliableTask fuel stops
  | other => other

/-- The number of calls of `AdapterStop` recorded in a trace. -/
def subscriberStops : List (SubscriberEvent M) → Nat
  | [] => 0
  | SubscriberEvent.adapterStop _ :: rest => subscriberStops rest + 1
  | _ :: rest => subscriberStops rest

/-- A Subscriber with all its callbacks, over a counter world, with the sample Lifecycle
whose spawn hooks succeed: receiving yields the counter, stopping adds `100`. -/
def sampleSubscriber : Subscriber Nat Nat where
  HandleRecv := some (fun w _ => (w, none))
  AdapterRecv := some (fun w => (w + 1, Except.ok w))
  AdapterStop := some (fun w => (w + 100, none))
  Fixup := none
  FixupMaxRetrySecond := 0
  appDataMade := false
  Lifecycle := sampleLifecycleOk
  isStop := false
  onceInit := false
  trace := []

/-- The sample Subscriber without its `HandleRecv`. -/
def sampleSubscriberNoHandler : Subscriber Nat Nat :=
  { sampleSubscriber with HandleRecv := none }

/-- The sample Subscriber without its `AdapterStop`. -/
def sampleSubscriberNoStop : Subscriber Nat Nat :=
  { sampleSubscriber with AdapterStop := none }

/-- A stand-in for the absent `ReliableTask`: it runs the task once. -/
def runOnce {α β : Type} (task : α → β) (a : α) : β :=
  task a

/-! ## Shutdown (`shutdown.go`) -/

/-- What a Shutdown does, in program order: the call of the stop action of a service, with
the number of the service (from 1), the name read for it, and what the action returned;
and the `close(s.done)`.  The calls of the logger are left out. -/
inductive ShutdownEvent where
  | action (number : Nat) (name : String) (result : Option Error) : ShutdownEvent
  | closeDone : ShutdownEvent
  deriving DecidableEq, Repr

/-- Where the goroutine started by `Listen` stands: `Listen` has not been called; the
goroutine is at its `select`; it has started one goroutine per service and is at
`wg.Wait()`; it has closed `s.done` and returned. -/
inductive ListenPhase where
  | idle : ListenPhase
  | selecting : ListenPhase
  | waiting : ListenPhase
  | finished : ListenPhase
  deriving DecidableEq, Repr

/-- The struct `Shutdown`, with the state of the goroutine of one call of `Listen`.
`hasCancel` tells that `s.cancel` is set; `cancelled` that the context is done;
`signalled` that a signal waits in `s.sysSignal`; `wg` is the counter of the wait group of
the goroutine; `pending` are the numbers of the service goroutines started and not yet
run. -/
structure Shutdown (W : Type) where
  done : Chan
  hasCancel : Bool
  cancelled : Bool
  signalled : Bool
  stopQty : Nat
  names : List String
  stopActions : List (W → W × Option Error)
  phase : ListenPhase
  wg : Int
  pending : List Nat
  world : W
  trace : List ShutdownEvent

/-- `func NewShutdown() *Shutdown`. -/
def NewShutdown (world : W) : Shutdown W where
  done := Chan.isOpen
  hasCancel := false
  cancelled := false
  signalled := false
  stopQty := 0
  names := []
  stopActions := []
  phase := ListenPhase.idle
  wg := 0
  pending := []
  world := world
  trace := []

/-- `func (s *Shutdown) SetStopAction(name string, action func() error) *Shutdown`. -/
def Shutdown.SetStopAction (s : Shutdown W) (name : String) (action : W → W × Option Error) :
    Shutdown W :=
  { s with stopQty := s.stopQty + 1,
           names := s.names ++ [name],
           stopActions := s.stopActions ++ [action] }

/-- The calls of `SetStopAction` for a list of (name, action) pairs, in order. -/
def Shutdown.register (s : Shutdown W) : List (String × (W → W × Option Error)) → Shutdown W
  | [] => s
  | pair :: rest => Shutdown.register (s.SetStopAction pair.1 pair.2) rest

/-- `func (s *Shutdown) Listen(ctx context.Context) *Shutdown`: it sets `s.cancel` and
starts the goroutine, which begins at its `select`. -/
def Shutdown.Listen (s : Shutdown W) : Shutdown W :=
  { s with hasCancel := true, phase := ListenPhase.selecting }

/-- `func (s *Shutdown) NotifyStop(cause error)`: calling the nil `s.cancel` panics. -/
def Shutdown.NotifyStop (s : Shutdown W) : Except Panic (Shutdown W) :=
  if s.hasCancel then Except.ok { s with cancelled := true }
  else Except.error Panic.nilFunctionCall

/-- Whether `Wait()` returns: `<-s.done` returns once the channel is closed. -/
def Shutdown.waitReturns (s : Shutdown W) : Bool :=
  decide (s.done = Chan.isClosed)

/-- The goroutine of `Listen` moves.  At the `select` it goes on when a signal or the
cancellation is there, runs the loop `wg.Add(1); go func() { ... }()` over the services
and reaches `wg.Wait()`; at `wg.Wait()` it goes on when the counter is zero and closes
`s.done`.  Otherwise it stays blocked. -/
def Shutdown.mainStep (s : Shutdown W) : Except Panic (Shutdown W) :=
  match s.phase with
  | ListenPhase.idle => Except.ok s
  | ListenPhase.finished => Except.ok s
  | ListenPhase.selecting =>
    if s.signalled || s.cancelled then
      -- wg := sync.WaitGroup{}; for i := 0; i < s.stopQty; i++ { number := i + 1; ... }
      Except.ok { s with phase := ListenPhase.waiting,
                         wg := (s.stopQty : Int),
                         pending := List.range' 1 s.stopQty }
    else Except.ok s
  | ListenPhase.waiting =>
    if s.wg = 0 then
      match s.done.close with
      | Except.error p => Except.error p
      | Except.ok ch =>
        Except.ok { s with phase := ListenPhase.finished, done := ch,
                           trace := s.trace ++ [ShutdownEvent.closeDone] }
    else Except.ok s

/-- The service goroutine with the number `number` runs to its end:
`err := s.stopActions[number-1]()` with the name `s.names[number-1]`, then the deferred
`wg.Done()`. -/
def Shutdown.workerStep (s : Shutdown W) (number : Nat) : Except Panic (Shutdown W) :=
  if number ∈ s.pending then
    match s.names.get? (number - 1), s.stopActions.get? (number - 1) with
    | some name, some action =>
      let r := action s.world
      if s.wg - 1 < 0 then Except.error Panic.negativeWaitGroupCounter
      else
        Except.ok { s with pending := s.pending.erase number,
                           world := r.1,
                           trace := s.trace ++ [ShutdownEvent.action number name r.2],
                           wg := s.wg - 1 }
    | _, _ => Except.error Panic.indexOutOfRange
  else Except.ok s

/-- What can happen to a Shutdown after `Listen`: a component calls `NotifyStop`, the
operating system delivers a termination signal, the goroutine of `Listen` moves, or the
service goroutine `number` runs. -/
inductive ShutdownAction where
  | notifyStop : ShutdownAction
  | signal : ShutdownAction
  | main : ShutdownAction
  | worker (number : Nat) : ShutdownAction
  deriving DecidableEq, Repr

/-- One action on a Shutdown. -/
def Shutdown.step (s : Shutdown W) : ShutdownAction → Except Panic (Shutdown W)
  | ShutdownAction.notifyStop => s.NotifyStop
  | ShutdownAction.signal => Except.ok { s with signalled := true }
  | ShutdownAction.main => s.mainStep
  | ShutdownAction.worker number => s.workerStep number

/-- A schedule of actions, left to right; a panic ends the run. -/
def Shutdown.run (s : Shutdown W) : List ShutdownAction → Except Panic (Shutdown W)
  | [] => Except.ok s
  | act :: rest =>
    match s.step act with
    | Except.error p => Except.error p
    | Except.ok s1 => Shutdown.run s1 rest

/-- The numbers of the services whose stop action was called in a trace, in call order. -/
def actionNumbers : List ShutdownEvent → List Nat
  | [] => []
  | ShutdownEvent.action number _ _ :: rest => number :: actionNumbers rest
  | ShutdownEvent.closeDone :: rest => actionNumbers rest

/-- Every call of a stop action in the trace used the name registered with the action of
that number. -/
def namesMatch (names : List String) (trace : List ShutdownEvent) : Prop :=
  ∀ number name result, ShutdownEvent.action number name result ∈ trace →
    1 ≤ number ∧ names.get? (number - 1) = some name

/-- The state invariant of a Shutdown after `Listen`, for the registered pairs `regs`. -/
def Shutdown.Inv (regs : List (String × (W → W × Option Error))) (s : Shutdown W) : Prop :=
  s.hasCancel = true ∧
  s.names = regs.map Prod.fst ∧ s.stopActions = regs.map Prod.snd ∧
  s.stopQty = regs.length ∧
  namesMatch s.names s.trace ∧
  match s.phase with
  | ListenPhase.idle => False
  | ListenPhase.selecting =>
    s.done = Chan.isOpen ∧ s.trace = [] ∧ s.pending = [] ∧ s.wg = 0
  | ListenPhase.waiting =>
    s.done = Chan.isOpen ∧ ShutdownEvent.closeDone ∉ s.trace ∧
    s.wg = (s.pending.length : Int) ∧
    (actionNumbers s.trace ++ s.pending).Perm (List.range' 1 regs.length)
  | ListenPhase.finished =>
    s.done = Chan.isClosed ∧ s.pending = [] ∧
    ∃ pre, s.trace = pre ++ [ShutdownEvent.closeDone] ∧ ShutdownEvent.closeDone ∉ pre ∧
      (actionNumbers pre).Perm (List.range' 1 regs.length)

/-- Three services over a counter world; the second one fails. -/
def sampleServices : List (String × (Nat → Nat × Option Error)) :=
  [("db", fun w => (w + 1, none)),
   ("mq", fun w => (w + 10, some (Error.other "mq down"))),
   ("http", fun w => (w + 100, none))]

/-- The sample Shutdown: the three services registered, then `Listen`. -/
def sampleShutdown : Shutdown Nat :=
  ((NewShutdown 0).register sampleServices).Listen

/-! ## PingPong (`ping_pong.go`): the responder -/

/-- Modelled from the spec: the text `err.Error()` of an error, which `fmt.Errorf` with
`%v` puts into its message; the error values are declared in a file that is not part of
the sources. -/
def Error.text : Error → String
  | Error.ErrClosed => "closed"
  | Error.ErrInvalidParameter => "invalid parameter"
  | Error.wrapWithMessage err msg => msg ++ ": " ++ err.text
  | Error.other text => text

/-- What the `select` of `WaitPingSendPong` can receive: the expiry of the timer
(`<-timer.C`), or a ping, that is the value sent on `waitPing`, the result of the ping
handler.  When each of them comes is decided by the clock and the peer: the embedding takes
them as a list, in the order the `select` receives them. -/
inductive PingEvent where
  | timerExpiry : PingEvent
  | ping (handlerResult : Option Error) : PingEvent
  deriving DecidableEq, Repr

/-- A run of `WaitPingSendPong`: the world after it, the results of its calls of
`sendPong` in call order, and its outcome: `none` when it is blocked in the `select` (no
event left), `some r` when it has returned `r`. -/
structure PongRun (W : Type) where
  world : W
  pongs : List (Option Error)
  result : Option (Option Error)

/-- The loop `for !isStop() { select { ... } }` of `WaitPingSendPong`.  The stop predicate
reads a flag that other tasks write: `isStop n` is what its call number `n` returns. -/
def waitPingLoop (sendPong : W → W × Option Error) (isStop : Nat → Bool) :
    Nat → W → List (Option Error) → List PingEvent → PongRun W
  | n, world, pongs, [] =>
    if isStop n then { world := world, pongs := pongs, result := some none }
    else { world := world, pongs := pongs, result := none }
  | n, world, pongs, event :: rest =>
    if isStop n then { world := world, pongs := pongs, result := some none }
    else
      match event with
      -- case <-timer.C: return errors.New("wait ping timeout")
      | PingEvent.timerExpiry =>
        { world := world, pongs := pongs,
          result := some (some (Error.other "wait ping timeout")) }
      -- case err := <-waitPing: if err != nil { return fmt.Errorf("wait ping: %v", err) }
      | PingEvent.ping (some err) =>
        { world := world, pongs := pongs,
          result := some (some (Error.other ("wait ping: " ++ err.text))) }
      | PingEvent.ping none =>
        -- err = sendPong(); if err != nil { return fmt.Errorf("send pong: %v", err) }
        let r := sendPong world
        match r.2 with
        | some err =>
          { world := r.1, pongs := pongs ++ [some err],
            result := some (some (Error.other ("send pong: " ++ err.text))) }
        -- timer.Reset(pingWaitTime)
        | none => waitPingLoop sendPong isStop (n + 1) r.1 (pongs ++ [none]) rest

/-- `func WaitPingSendPong(waitPing <-chan error, sendPong func() error,
isStop func() bool, pingWaitSecond int) error`, driven by the events `events`; the
duration `pingWaitSecond` only decides when the timer events come. -/
def WaitPingSendPong (events : List PingEvent) (sendPong : W → W × Option Error)
    (isStop : Nat → Bool) (world : W) : PongRun W :=
  waitPingLoop sendPong isStop 0 world [] events

/-- A sample `sendPong` over a counter world: it counts its calls and fails on the third
one. -/
def samplePong : Nat → Nat × Option Error :=
  fun w => (w + 1, if w = 2 then some (Error.other "broken pipe") else none)

/-- What a run of `WaitPingSendPong` that is never stopped has done with the events
`events`, given the results `pongs` of its calls of `sendPong` and its outcome `result`.
The pings answered are the first `pongs.length` events, each a ping with handler result
nil.  The run has not returned nil.  If it is blocked, every event was answered and every
`sendPong` succeeded.  If it returned `err`, then either the last `sendPong` failed (and
the ones before succeeded), or every `sendPong` succeeded and the next event is the timer
expiry, or a ping with a handler error. -/
def pongOutcome (events : List PingEvent) (pongs : List (Option Error))
    (result : Option (Option Error)) : Prop :=
  pongs.length ≤ events.length ∧
  events.take pongs.length = List.replicate pongs.length (PingEvent.ping none) ∧
  result ≠ some none ∧
  (result = none → pongs.length = events.length ∧ ∀ r ∈ pongs, r = none) ∧
  (∀ err, result = some (some err) →
    (∃ pre e, pongs = pre ++ [some e] ∧ (∀ r ∈ pre, r = none) ∧
      err = Error.other ("send pong: " ++ e.text)) ∨
    ((∀ r ∈ pongs, r = none) ∧ events.get? pongs.length = some PingEvent.timerExpiry ∧
      err = Error.other "wait ping timeout") ∨
    ((∀ r ∈ pongs, r = none) ∧ ∃ e, events.get? pongs.length = some (PingEvent.ping (some e)) ∧
      err = Error.other ("wait ping: " ++ e.text)))

/-! ## Reference semantics of callback sequences -/

/-- The calls of the functions `fs` one after another on a world, whatever each of them
returns: the world reached, and the results in call order.  It is the yardstick of the
theorems: what a method has done to the world, and what its callbacks returned, is stated
against it, from the callbacks alone. -/
def callsInOrder : List (W → W × Option Error) → W → W × List (Option Error)
  | [], w => (w, [])
  | f :: rest, w => ((callsInOrder rest (f w).1).1, (f w).2 :: (callsInOrder rest (f w).1).2)

/-- The world on which the first `Stop` of an Adapter must call the bound stop function,
from the callbacks alone: the Hub deregistration (if the Adapter is joined) and then the
lifecycle's `asyncTerminate` have acted on the Adapter's world. -/
def Adapter.stopInput (adp : Adapter W Ingress Egress) : W :=
  adp.lifecycleAsyncTerminate
    (match adp.hub with
     | none => adp.world
     | some removeOne => removeOne adp.world)

/-- The calls of the bound send function on the messages `msgs`, one per message. -/
def Adapter.sendCallsOf (adp : Adapter W Ingress Egress) (msgs : List Egress) :
    List (W → W × Option Error) :=
  msgs.map (fun msg w => adp.adapterSend w msg)

/-- The sample Hub with the one member `7` after `Stop` has returned: the exit task of `7`
is started and has not run, and the wait-group counter is already `0`. -/
def sampleHub1Stopped : Artist Nat Nat :=
  match sampleHub1.Stop with
  | Except.ok hub => hub
  | Except.error _ => sampleHub1

/-- The calls of the registered stop actions of the services numbered `order` (from 1),
one after another on a world, whatever each returns: the world reached and the events of
the calls, each with the registered name and the result of the registered action.  It is
stated from the registered pairs alone; a number that names no service is passed over. -/
def servicesInOrder (regs : List (String × (W → W × Option Error))) :
    List Nat → W → W × List ShutdownEvent
  | [], w => (w, [])
  | number :: rest, w =>
    if number = 0 then servicesInOrder regs rest w
    else
      match regs.get? (number - 1) with
      | none => servicesInOrder regs rest w
      | some pair =>
        ((servicesInOrder regs rest (pair.2 w).1).1,
          ShutdownEvent.action number pair.1 (pair.2 w).2 ::
            (servicesInOrder regs rest (pair.2 w).1).2)

/-- The events of a trace that are calls of stop actions. -/
def actionEvents (trace : List ShutdownEvent) : List ShutdownEvent :=
  trace.filter (fun ev => decide (ev ≠ ShutdownEvent.closeDone))

/-- The world and the trace of a Shutdown are the ones of the calls of the registered
actions, in the order in which the trace lists them, from the world `w0`. -/
def Shutdown.Tracks (regs : List (String × (W → W × Option Error))) (w0 : W)
    (s : Shutdown W) : Prop :=
  s.world = (servicesInOrder regs (actionNumbers s.trace) w0).1 ∧
  actionEvents s.trace = (servicesInOrder regs (actionNumbers s.trace) w0).2

end Artifex

/-! # Theorems -/

namespace Artifex

variable {W Ingress Egress : Type} {S : Type} {M : Type}

/-! ## Counting lemmas on adapter traces -/

theorem stopCalls_append (xs ys : List (AdapterEvent Ingress Egress)) :
    stopCalls (xs ++ ys) = stopCalls xs + stopCalls ys := by
  induction xs with
  | nil => simp [stopCalls]
  | cons x xs ih => cases x <;> simp [stopCalls, ih, Nat.add_right_comm]

theorem removeCalls_append (xs ys : List (AdapterEvent Ingress Egress)) :
    removeCalls (xs ++ ys) = removeCalls xs + removeCalls ys := by
  induction xs with
  | nil => simp [removeCalls]
  | cons x xs ih => cases x <;> simp [removeCalls, ih, Nat.add_right_comm]

theorem sendCalls_append (xs ys : List (AdapterEvent Ingress Egress)) :
    sendCalls (xs ++ ys) = sendCalls xs + sendCalls ys := by
  induction xs with
  | nil => simp [sendCalls]
  | cons x xs ih => cases x <;> simp [sendCalls, ih, Nat.add_right_comm]

theorem stopCalls_stopEvents (hasHub : Bool) (result : Option Error) :
    stopCalls (stopEvents hasHub result : List (AdapterEvent Ingress Egress)) = 1 := by
  cases hasHub <;> simp [stopEvents, stopCalls]

theorem removeCalls_stopEvents (hasHub : Bool) (result : Option Error) :
    removeCalls (stopEvents hasHub result : List (AdapterEvent Ingress Egress))
      = if hasHub then 1 else 0 := by
  cases hasHub <;> simp [stopEvents, removeCalls]

/-- `Stop` on a stopped Adapter returns the Closed error and the Adapter as it was. -/
theorem Adapter.Stop_stopped (adp : Adapter W Ingress Egress) (hs : adp.isStopped = true) :
    adp.Stop = Except.ok (adp, some (ErrorWrapWithMessage Error.ErrClosed "Artifex adapter")) := by
  simp [Adapter.Stop, hs]

/-! ## C1: `Stop` is idempotent -/

/-- A first `Stop` on an unstopped, well-formed Adapter, in full: what it returns and the
state it leaves, from the callbacks. -/
theorem Adapter.Stop_running_eq (adp : Adapter W Ingress Egress)
    (hs : adp.isStopped = false) (hwf : adp.WF) :
    adp.Stop = Except.ok
      ({ adp with isStopped := true, waitStop := Chan.isClosed,
                  world := adp.lifecycleWait (adp.adapterStop adp.stopInput).1,
                  trace := adp.trace ++
                    stopEvents adp.hub.isSome (adp.adapterStop adp.stopInput).2 },
        (adp.adapterStop adp.stopInput).2) := by
  have hopen : adp.waitStop = Chan.isOpen := by
    cases hw : adp.waitStop with
    | isOpen => rfl
    | isClosed => rw [hwf.mp hw] at hs; cases hs
  cases hh : adp.hub with
  | none =>
    simp [Adapter.Stop, Adapter.deregister, Adapter.stopInput, hs, hh, hopen, Chan.close,
      stopEvents]
  | some removeOne =>
    simp [Adapter.Stop, Adapter.deregister, Adapter.stopInput, hs, hh, hopen, Chan.close,
      stopEvents]

/-- C1. For every Adapter that is not yet stopped (and whose wait-stop signal is
therefore still open), `Stop()` returns normally.  It returns exactly what the bound stop
function returned, called once on the world left by the Hub deregistration (if the
Adapter is joined) and by the lifecycle's `asyncTerminate`; the world it leaves is the one
the stop function produced, after the lifecycle's `wait`; afterwards `IsStopped()` is true
and the wait-stop signal is closed, and nothing else of the Adapter has changed.  A second,
sequential `Stop()` returns the Closed error and the very same Adapter state (same world,
same trace): it invokes neither the bound stop function nor the Hub deregistration, so
over both calls the stop function is invoked exactly once. -/
theorem Adapter.Stop_idempotent (adp : Adapter W Ingress Egress)
    (hs : adp.IsStopped = false) (hwf : adp.WF) :
    ∃ adp1 err1, adp.Stop = Except.ok (adp1, err1) ∧
      adp1.IsStopped = true ∧ adp1.WaitStop = Chan.isClosed ∧
      err1 = (adp.adapterStop adp.stopInput).2 ∧
      adp1 = { adp with isStopped := true, waitStop := Chan.isClosed,
                        world := adp.lifecycleWait (adp.adapterStop adp.stopInput).1,
                        trace := adp.trace ++
                          stopEvents adp.hub.isSome (adp.adapterStop adp.stopInput).2 } ∧
      (∃ err2, adp1.Stop = Except.ok (adp1, some err2) ∧ err2.isClosed = true) ∧
      (∀ adp2 err2, adp1.Stop = Except.ok (adp2, err2) →
        adp2 = adp1 ∧
        stopCalls adp2.trace = stopCalls adp.trace + 1 ∧
        removeCalls adp2.trace = removeCalls adp.trace + (if adp.hub.isSome then 1 else 0)) := by
  have hstop := Adapter.Stop_running_eq adp hs hwf
  have hagain := Adapter.Stop_stopped
    ({ adp with isStopped := true, waitStop := Chan.isClosed,
                world := adp.lifecycleWait (adp.adapterStop adp.stopInput).1,
                trace := adp.trace ++
                  stopEvents adp.hub.isSome (adp.adapterStop adp.stopInput).2 }) rfl
  refine ⟨_, _, hstop, rfl, rfl, rfl, rfl, ⟨_, hagain, ?_⟩, ?_⟩
  · simp [ErrorWrapWithMessage, Error.isClosed]
  · intro adp2 err2 h2
    rw [hagain] at h2
    injection h2 with h2
    injection h2 with h2 _
    subst h2
    refine ⟨rfl, ?_, ?_⟩
    · show stopCalls (adp.trace ++ stopEvents adp.hub.isSome _) = _
      rw [stopCalls_append, stopCalls_stopEvents]
    · show removeCalls (adp.trace ++ stopEvents adp.hub.isSome _) = _
      rw [removeCalls_append, removeCalls_stopEvents]

/-- C1 at the sample Adapter: unstopped, signal open, joined to a Hub; its stop function
adds `100` to the world that the deregistration has raised to `1000`, and fails. -/
theorem Adapter.Stop_idempotent_witness :
    sampleAdapter.IsStopped = false ∧ sampleAdapter.WF ∧
    (sampleAdapter.adapterStop sampleAdapter.stopInput) = (1100, some (Error.other "stop")) ∧
    ∃ adp1 err1, sampleAdapter.Stop = Except.ok (adp1, err1) ∧
      adp1.IsStopped = true ∧ adp1.WaitStop = Chan.isClosed ∧
      err1 = (sampleAdapter.adapterStop sampleAdapter.stopInput).2 ∧
      adp1 = { sampleAdapter with
                isStopped := true, waitStop := Chan.isClosed,
                world := sampleAdapter.lifecycleWait
                  (sampleAdapter.adapterStop sampleAdapter.stopInput).1,
                trace := sampleAdapter.trace ++ stopEvents sampleAdapter.hub.isSome
                  (sampleAdapter.adapterStop sampleAdapter.stopInput).2 } ∧
      (∃ err2, adp1.Stop = Except.ok (adp1, some err2) ∧ err2.isClosed = true) ∧
      (∀ adp2 err2, adp1.Stop = Except.ok (adp2, err2) →
        adp2 = adp1 ∧
        stopCalls adp2.trace = stopCalls sampleAdapter.trace + 1 ∧
        removeCalls adp2.trace
          = removeCalls sampleAdapter.trace + (if sampleAdapter.hub.isSome then 1 else 0)) :=
  ⟨rfl, by simp [Adapter.WF, sampleAdapter], rfl,
    Adapter.Stop_idempotent sampleAdapter rfl (by simp [Adapter.WF, sampleAdapter])⟩

/-! ## C2: `Send` stops at the first failure -/

theorem sendCalls_sendEvents (msgs : List Egress) (results : List (Option Error)) :
    sendCalls (sendEvents msgs results : List (AdapterEvent Ingress Egress))
      = min msgs.length results.length := by
  induction msgs generalizing results with
  | nil => simp [sendEvents, sendCalls]
  | cons m ms ih =>
    cases results with
    | nil => simp [sendEvents, sendCalls]
    | cons r rs =>
      have h := ih rs
      simp only [sendEvents] at h
      simp only [sendEvents, List.zipWith_cons_cons, sendCalls, h, List.length_cons]
      omega

theorem sendEvents_take (msgs : List Egress) (results : List (Option Error)) :
    (sendEvents (msgs.take results.length) results : List (AdapterEvent Ingress Egress))
      = sendEvents msgs results := by
  induction msgs generalizing results with
  | nil => simp [sendEvents]
  | cons m ms ih =>
    cases results with
    | nil => simp [sendEvents]
    | cons r rs =>
      have h := ih rs
      simp only [sendEvents] at h
      simp [sendEvents, h]

/-- The loop of `Send`: the results of the calls it makes, in order. -/
theorem Adapter.sendLoop_spec (messages : List Egress) (adp : Adapter W Ingress Egress) :
    ∃ results : List (Option Error),
      results.length ≤ messages.length ∧
      (adp.sendLoop messages).1.trace = adp.trace ++ sendEvents messages results ∧
      ((adp.sendLoop messages).2 = none →
        results.length = messages.length ∧ ∀ r ∈ results, r = none) ∧
      (∀ err, (adp.sendLoop messages).2 = some err →
        ∃ pre, results = pre ++ [some err] ∧ ∀ r ∈ pre, r = none) := by
  induction messages generalizing adp with
  | nil => exact ⟨[], by simp [Adapter.sendLoop, sendEvents]⟩
  | cons m ms ih =>
    cases hr : (adp.adapterSend adp.world m).2 with
    | some e =>
      refine ⟨[some e], by simp, ?_, ?_, ?_⟩
      · simp [Adapter.sendLoop, hr, sendEvents]
      · simp [Adapter.sendLoop, hr]
      · intro err herr
        refine ⟨[], ?_, by simp⟩
        simp [Adapter.sendLoop, hr] at herr
        simp [herr]
    | none =>
      obtain ⟨rs, hlen, htrace, hnone, hsome⟩ := ih
        { adp with world := (adp.adapterSend adp.world m).1,
                   trace := adp.trace ++ [AdapterEvent.adapterSend m none] }
      refine ⟨none :: rs, by simpa using hlen, ?_, ?_, ?_⟩
      · simp only [Adapter.sendLoop, hr]
        rw [htrace]
        simp [sendEvents]
      · intro h
        simp only [Adapter.sendLoop, hr] at h
        obtain ⟨h1, h2⟩ := hnone h
        refine ⟨by simp [h1], ?_⟩
        intro r hmem
        rcases List.mem_cons.mp hmem with h0 | h0
        · exact h0
        · exact h2 r h0
      · intro err h
        simp only [Adapter.sendLoop, hr] at h
        obtain ⟨pre, h1, h2⟩ := hsome err h
        refine ⟨none :: pre, by simp [h1], ?_⟩
        intro r hmem
        rcases List.mem_cons.mp hmem with h0 | h0
        · exact h0
        · exact h2 r h0

/-- The loop of `Send` when every send succeeds: every message is sent, in order. -/
theorem Adapter.sendLoop_all_ok (msgs : List Egress) (adp : Adapter W Ingress Egress)
    (hok : ∀ r ∈ (callsInOrder (adp.sendCallsOf msgs) adp.world).2, r = none) :
    adp.sendLoop msgs =
      ({ adp with world := (callsInOrder (adp.sendCallsOf msgs) adp.world).1,
                  trace := adp.trace ++ msgs.map (fun msg => AdapterEvent.adapterSend msg none) },
        none) := by
  induction msgs generalizing adp with
  | nil => simp [Adapter.sendLoop, Adapter.sendCallsOf, callsInOrder]
  | cons msg rest ih =>
    have hhead : (adp.adapterSend adp.world msg).2 = none :=
      hok _ (by simp [Adapter.sendCallsOf, callsInOrder])
    have hrest := ih
      { adp with world := (adp.adapterSend adp.world msg).1,
                 trace := adp.trace ++ [AdapterEvent.adapterSend msg none] }
      (fun r hr => hok r (by
        simp only [Adapter.sendCallsOf, List.map_cons, callsInOrder, List.mem_cons]
        exact Or.inr hr))
    simp only [Adapter.sendLoop, hhead]
    rw [hrest]
    simp [Adapter.sendCallsOf, callsInOrder]

/-- The loop of `Send` at the first failure: the messages before it are sent, the failing
send is made, its error is returned, and nothing after it is sent. -/
theorem Adapter.sendLoop_first_failure (pre : List Egress) (msg : Egress) (post : List Egress)
    (err : Error) (adp : Adapter W Ingress Egress)
    (hok : ∀ r ∈ (callsInOrder (adp.sendCallsOf pre) adp.world).2, r = none)
    (hfail : (adp.adapterSend (callsInOrder (adp.sendCallsOf pre) adp.world).1 msg).2
      = some err) :
    adp.sendLoop (pre ++ msg :: post) =
      ({ adp with
          world := (adp.adapterSend (callsInOrder (adp.sendCallsOf pre) adp.world).1 msg).1,
          trace := adp.trace ++ pre.map (fun m => AdapterEvent.adapterSend m none) ++
            [AdapterEvent.adapterSend msg (some err)] },
        some err) := by
  induction pre generalizing adp with
  | nil =>
    simp only [Adapter.sendCallsOf, List.map_nil, callsInOrder] at hfail
    simp [Adapter.sendLoop, Adapter.sendCallsOf, callsInOrder, hfail]
  | cons first rest ih =>
    have hhead : (adp.adapterSend adp.world first).2 = none :=
      hok _ (by simp [Adapter.sendCallsOf, callsInOrder])
    have hrest := ih
      { adp with world := (adp.adapterSend adp.world first).1,
                 trace := adp.trace ++ [AdapterEvent.adapterSend first none] }
      (fun r hr => hok r (by
        simp only [Adapter.sendCallsOf, List.map_cons, callsInOrder, List.mem_cons]
        exact Or.inr hr))
      (by simpa [Adapter.sendCallsOf, callsInOrder] using hfail)
    have hstep : adp.sendLoop (first :: (rest ++ msg :: post)) =
        Adapter.sendLoop
          { adp with world := (adp.adapterSend adp.world first).1,
                     trace := adp.trace ++ [AdapterEvent.adapterSend first none] }
          (rest ++ msg :: post) := by
      simp only [Adapter.sendLoop, hhead]
    rw [List.cons_append, hstep, hrest]
    simp [Adapter.sendCallsOf, callsInOrder]

/-- C2. For every Adapter.  If it is stopped, `Send` of any messages returns the Closed
error and leaves the Adapter as it was, so the bound send function is invoked zero times.
If it is not stopped: when the bound send function succeeds on every message, called on
each in list order on the world the call before left, `Send` returns nil and has made
exactly those calls, each once; and when it succeeds on the messages `pre` and then fails
with `err` on the message `msg`, `Send` of `pre`, `msg` and any later messages `post`
returns exactly `err`, has called the send function on `pre` and on `msg`, in order and
once each, and on none of `post`: the world is the one the failing call left. -/
theorem Adapter.Send_spec (adp : Adapter W Ingress Egress) :
    (adp.IsStopped = true → ∀ messages : List Egress,
      ∃ err, adp.Send messages = (adp, some err) ∧ err.isClosed = true) ∧
    (adp.IsStopped = false →
      (∀ messages : List Egress,
        (∀ r ∈ (callsInOrder (adp.sendCallsOf messages) adp.world).2, r = none) →
        adp.Send messages =
          ({ adp with
              world := (callsInOrder (adp.sendCallsOf messages) adp.world).1,
              trace := adp.trace ++
                messages.map (fun msg => AdapterEvent.adapterSend msg none) },
            none)) ∧
      (∀ (pre : List Egress) (msg : Egress) (post : List Egress) (err : Error),
        (∀ r ∈ (callsInOrder (adp.sendCallsOf pre) adp.world).2, r = none) →
        (adp.adapterSend (callsInOrder (adp.sendCallsOf pre) adp.world).1 msg).2 = some err →
        adp.Send (pre ++ msg :: post) =
          ({ adp with
              world := (adp.adapterSend
                (callsInOrder (adp.sendCallsOf pre) adp.world).1 msg).1,
              trace := adp.trace ++ pre.map (fun m => AdapterEvent.adapterSend m none) ++
                [AdapterEvent.adapterSend msg (some err)] },
            some err))) := by
  constructor
  · intro hs messages
    have hs1 : adp.isStopped = true := hs
    refine ⟨ErrorWrapWithMessage Error.ErrClosed "Artifex adapter", ?_, ?_⟩
    · simp [Adapter.Send, hs1]
    · simp [ErrorWrapWithMessage, Error.isClosed]
  · intro hs
    have hs1 : adp.isStopped = false := hs
    have hsend : ∀ messages : List Egress, adp.Send messages = adp.sendLoop messages := by
      intro messages
      simp [Adapter.Send, hs1]
    constructor
    · intro messages hok
      rw [hsend]
      exact Adapter.sendLoop_all_ok messages adp hok
    · intro pre msg post err hok hfail
      rw [hsend]
      exact Adapter.sendLoop_first_failure pre msg post err adp hok hfail

/-- C2 at the sample Adapter, whose send function adds the message to the counter and
fails on the message `0`: of the messages `3, 4, 0, 5` the first two are sent, the third
fails, the fourth is not sent. -/
theorem Adapter.Send_spec_witness :
    sampleAdapter.IsStopped = false ∧
    (callsInOrder (sampleAdapter.sendCallsOf [3, 4]) sampleAdapter.world) = (7, [none, none]) ∧
    (sampleAdapter.Send ([3, 4] ++ 0 :: [5])).2 = some (Error.other "send") ∧
    (sampleAdapter.Send ([3, 4] ++ 0 :: [5])).1.world = 7 ∧
    sampleAdapter.Send ([3, 4] ++ 0 :: [5]) =
      ({ sampleAdapter with
          world := (sampleAdapter.adapterSend
            (callsInOrder (sampleAdapter.sendCallsOf [3, 4]) sampleAdapter.world).1 0).1,
          trace := sampleAdapter.trace ++
            [3, 4].map (fun m => AdapterEvent.adapterSend m none) ++
            [AdapterEvent.adapterSend 0 (some (Error.other "send"))] },
        some (Error.other "send")) :=
  ⟨rfl, rfl, rfl, rfl,
    ((Adapter.Send_spec sampleAdapter).2 rfl).2 [3, 4] 0 [5] (Error.other "send")
      (by decide) rfl⟩

/-! ## Lifecycle: the hook loops -/

theorem exitRuns_append (xs ys : List LifecycleEvent) :
    exitRuns (xs ++ ys) = exitRuns xs ++ exitRuns ys := by
  induction xs with
  | nil => simp [exitRuns]
  | cons x xs ih => cases x <;> simp [exitRuns, ih]

theorem closeCalls_append (xs ys : List LifecycleEvent) :
    closeCalls (xs ++ ys) = closeCalls xs + closeCalls ys := by
  induction xs with
  | nil => simp [closeCalls]
  | cons x xs ih => cases x <;> simp [closeCalls, ih, Nat.add_right_comm]

theorem exitEvents_cons (index : Nat) (r : Option Error) (rs : List (Option Error)) :
    exitEvents index (r :: rs) = LifecycleEvent.exit index r :: exitEvents (index + 1) rs := by
  simp [exitEvents, List.range']

theorem exitRuns_exitEvents (index : Nat) (results : List (Option Error)) :
    exitRuns (exitEvents index results) = List.range' index results.length := by
  induction results generalizing index with
  | nil => simp [exitEvents, exitRuns]
  | cons r rs ih => rw [exitEvents_cons, exitRuns, ih]; simp [List.range']

theorem closeCalls_exitEvents (index : Nat) (results : List (Option Error)) :
    closeCalls (exitEvents index results) = 0 := by
  induction results generalizing index with
  | nil => simp [exitEvents, closeCalls]
  | cons r rs ih => rw [exitEvents_cons]; simpa [closeCalls] using ih (index + 1)

theorem spawnOkEvents_succ (index count : Nat) :
    spawnOkEvents index (count + 1)
      = LifecycleEvent.spawn index none :: spawnOkEvents (index + 1) count := by
  simp [spawnOkEvents, List.range']

theorem exitRuns_spawnOkEvents (index count : Nat) :
    exitRuns (spawnOkEvents index count) = [] := by
  induction count generalizing index with
  | zero => simp [spawnOkEvents, exitRuns]
  | succ n ih => rw [spawnOkEvents_succ]; simpa [exitRuns] using ih (index + 1)

theorem Lifecycle.sameControl_refl (a : Lifecycle W) : a.sameControl a :=
  ⟨rfl, rfl, rfl, rfl, rfl, rfl⟩

theorem Lifecycle.sameControl_trans {a b c : Lifecycle W}
    (h1 : a.sameControl b) (h2 : b.sameControl c) : a.sameControl c :=
  ⟨h1.1.trans h2.1, h1.2.1.trans h2.2.1, h1.2.2.1.trans h2.2.2.1,
    h1.2.2.2.1.trans h2.2.2.2.1, h1.2.2.2.2.1.trans h2.2.2.2.2.1,
    h1.2.2.2.2.2.trans h2.2.2.2.2.2⟩

/-- The exit loop runs every hook it is given, in order, whatever the hooks return. -/
theorem Lifecycle.exitFrom_spec (hooks : List (W → W × Option Error)) (life : Lifecycle W)
    (index : Nat) :
    ∃ results : List (Option Error), results.length = hooks.length ∧
      (life.exitFrom index hooks).trace = life.trace ++ exitEvents index results ∧
      (life.exitFrom index hooks).sameControl life := by
  induction hooks generalizing life index with
  | nil => exact ⟨[], rfl, by simp [Lifecycle.exitFrom, exitEvents], Lifecycle.sameControl_refl _⟩
  | cons action rest ih =>
    obtain ⟨rs, hlen, htrace, hsame⟩ := ih
      { life with world := (action life.world).1,
                  trace := life.trace ++ [LifecycleEvent.exit index (action life.world).2] }
      (index + 1)
    refine ⟨(action life.world).2 :: rs, by simp [hlen], ?_, ?_⟩
    · simp only [Lifecycle.exitFrom]
      rw [htrace, exitEvents_cons]
      simp
    · simp only [Lifecycle.exitFrom]
      exact hsame

/-- The method `exit` runs every registered exit hook once, in registration order. -/
theorem Lifecycle.exit_spec (life : Lifecycle W) :
    ∃ results : List (Option Error), results.length = life.exitHandlers.length ∧
      life.exit.trace = life.trace ++ exitEvents 0 results ∧
      life.exit.sameControl life := by
  by_cases h : life.exitHandlers.length = 0
  · refine ⟨[], h.symm, ?_, ?_⟩
    · simp [Lifecycle.exit, h, exitEvents]
    · simp only [Lifecycle.exit, h, if_true]
      exact Lifecycle.sameControl_refl _
  · simp only [Lifecycle.exit, h, if_false]
    exact Lifecycle.exitFrom_spec life.exitHandlers life 0

/-- The spawn loop, when it fails: the hooks before the failing one succeeded, the
failing one returned the error, every exit hook ran, and nothing else changed. -/
theorem Lifecycle.spawnFrom_failure (hooks : List (W → W × Option Error)) (life : Lifecycle W)
    (index : Nat) (err : Error) (h : (life.spawnFrom index hooks).2 = some err) :
    ∃ (k : Nat) (results : List (Option Error)),
      k < hooks.length ∧ results.length = life.exitHandlers.length ∧
      (life.spawnFrom index hooks).1.trace
        = life.trace ++ spawnOkEvents index k ++ [LifecycleEvent.spawn (index + k) (some err)]
            ++ exitEvents 0 results ∧
      (life.spawnFrom index hooks).1.sameControl life := by
  induction hooks generalizing life index with
  | nil => simp [Lifecycle.spawnFrom] at h
  | cons enter rest ih =>
    cases hr : (enter life.world).2 with
    | some e =>
      simp only [Lifecycle.spawnFrom, hr] at h ⊢
      have he : e = err := by simpa using h
      subst he
      obtain ⟨rs, hlen, htrace, hsame⟩ := Lifecycle.exit_spec
        { life with world := (enter life.world).1,
                    trace := life.trace ++ [LifecycleEvent.spawn index (some e)] }
      refine ⟨0, rs, by simp, hlen, ?_, hsame⟩
      rw [htrace]
      simp [spawnOkEvents]
    | none =>
      simp only [Lifecycle.spawnFrom, hr] at h ⊢
      obtain ⟨k, rs, hk, hlen, htrace, hsame⟩ := ih
        { life with world := (enter life.world).1,
                    trace := life.trace ++ [LifecycleEvent.spawn index none] }
        (index + 1) h
      refine ⟨k + 1, rs, by simpa using hk, hlen, ?_, hsame⟩
      rw [htrace, spawnOkEvents_succ]
      simp [Nat.add_assoc, Nat.add_comm 1 k]

/-- The exit loop, in full: it calls every hook, in order, on the world the hook before
left, and logs what each returned. -/
theorem Lifecycle.exitFrom_eq (hooks : List (W → W × Option Error)) (life : Lifecycle W)
    (index : Nat) :
    life.exitFrom index hooks =
      { life with world := (callsInOrder hooks life.world).1,
                  trace := life.trace ++ exitEvents index (callsInOrder hooks life.world).2 } := by
  induction hooks generalizing life index with
  | nil =>
    cases life
    simp [Lifecycle.exitFrom, callsInOrder, exitEvents]
  | cons action rest ih =>
    simp only [Lifecycle.exitFrom]
    rw [ih]
    simp [callsInOrder, exitEvents_cons]

/-- The method `exit`, in full. -/
theorem Lifecycle.exit_eq (life : Lifecycle W) :
    life.exit =
      { life with
          world := (callsInOrder life.exitHandlers life.world).1,
          trace := life.trace ++
            exitEvents 0 (callsInOrder life.exitHandlers life.world).2 } := by
  by_cases h : life.exitHandlers.length = 0
  · have hnil : life.exitHandlers = [] := List.length_eq_zero.mp h
    cases life
    simp only at hnil
    subst hnil
    simp [Lifecycle.exit, callsInOrder, exitEvents]
  · simp only [Lifecycle.exit, h, if_false]
    exact Lifecycle.exitFrom_eq life.exitHandlers life 0

/-- The spawn loop when every hook succeeds, in full. -/
theorem Lifecycle.spawnFrom_success_eq (hooks : List (W → W × Option Error))
    (life : Lifecycle W) (index : Nat)
    (hok : ∀ r ∈ (callsInOrder hooks life.world).2, r = none) :
    life.spawnFrom index hooks =
      ({ life with world := (callsInOrder hooks life.world).1,
                   trace := life.trace ++ spawnOkEvents index hooks.length }, none) := by
  induction hooks generalizing life index with
  | nil =>
    cases life
    simp [Lifecycle.spawnFrom, callsInOrder, spawnOkEvents]
  | cons enter rest ih =>
    have hhead : (enter life.world).2 = none := hok _ (by simp [callsInOrder])
    have hrest := ih
      { life with world := (enter life.world).1,
                  trace := life.trace ++ [LifecycleEvent.spawn index none] }
      (index + 1)
      (fun r hr => hok r (by
        simp only [callsInOrder, List.mem_cons]
        exact Or.inr hr))
    simp only [Lifecycle.spawnFrom, hhead]
    rw [hrest]
    simp [callsInOrder, spawnOkEvents_succ]

/-- The spawn loop, when it succeeds: every hook ran once, in order, with result nil. -/
theorem Lifecycle.spawnFrom_success (hooks : List (W → W × Option Error)) (life : Lifecycle W)
    (index : Nat) (h : (life.spawnFrom index hooks).2 = none) :
    (life.spawnFrom index hooks).1.trace = life.trace ++ spawnOkEvents index hooks.length ∧
    (life.spawnFrom index hooks).1.sameControl life := by
  induction hooks generalizing life index with
  | nil => exact ⟨by simp [Lifecycle.spawnFrom, spawnOkEvents], Lifecycle.sameControl_refl _⟩
  | cons enter rest ih =>
    cases hr : (enter life.world).2 with
    | some e => simp [Lifecycle.spawnFrom, hr] at h
    | none =>
      simp only [Lifecycle.spawnFrom, hr] at h ⊢
      obtain ⟨htrace, hsame⟩ := ih
        { life with world := (enter life.world).1,
                    trace := life.trace ++ [LifecycleEvent.spawn index none] }
        (index + 1) h
      refine ⟨?_, hsame⟩
      rw [htrace, List.length_cons, spawnOkEvents_succ]
      simp

/-- A successful `Execute` with exit hooks registered: all spawn hooks ran, a fresh open
channel is the notification channel, the once flag is reset, and one waiter is added. -/
theorem Lifecycle.Execute_success (life : Lifecycle W) (h : life.Execute.2 = none)
    (hexit : life.exitHandlers.length ≠ 0) :
    life.Execute.1.trace = life.trace ++ spawnOkEvents 0 life.spawnHandlers.length ∧
    life.Execute.1.exitHandlers = life.exitHandlers ∧
    life.Execute.1.exitNotify = some life.chans.length ∧
    life.Execute.1.chans = life.chans ++ [Chan.isOpen] ∧
    life.Execute.1.onceClose = false ∧
    life.Execute.1.waiters = life.waiters ++ [WaiterState.notStarted] := by
  have hspawn : life.spawn.2 = none := by
    cases hr : life.spawn.2 with
    | none => rfl
    | some e => simp [Lifecycle.Execute, hr] at h
  have hfacts : life.spawn.1.trace = life.trace ++ spawnOkEvents 0 life.spawnHandlers.length ∧
      life.spawn.1.sameControl life := by
    by_cases h0 : life.spawnHandlers.length = 0
    · simp only [Lifecycle.spawn, h0, if_true]
      exact ⟨by simp [spawnOkEvents], Lifecycle.sameControl_refl _⟩
    · have hs : life.spawn = life.spawnFrom 0 life.spawnHandlers := by
        simp [Lifecycle.spawn, h0]
      rw [hs] at hspawn ⊢
      exact Lifecycle.spawnFrom_success life.spawnHandlers life 0 hspawn
  obtain ⟨htrace, hsame⟩ := hfacts
  obtain ⟨_, hE, _, _, hC, hWt⟩ := hsame
  have hexit1 : life.spawn.1.exitHandlers.length ≠ 0 := by rw [hE]; exact hexit
  simp only [Lifecycle.Execute, hspawn, hexit1, if_false]
  refine ⟨htrace, hE, ?_, ?_, ?_, ?_⟩ <;> simp [hC, hWt]

/-- Once the waiter has finished, no schedule changes anything. -/
theorem Lifecycle.run_finished (sched : List LifecycleAction) (life : Lifecycle W) (c : Nat)
    (hn : life.exitNotify = some c) (ho : life.onceClose = true)
    (hw : life.waiters = [WaiterState.finished]) :
    life.run sched = Except.ok life := by
  induction sched with
  | nil => rfl
  | cons act rest ih =>
    cases act with
    | notifyExit => simp [Lifecycle.run, Lifecycle.step, Lifecycle.NotifyExit, hn, ho, ih]
    | waiter i =>
      cases i with
      | zero => simp [Lifecycle.run, Lifecycle.step, Lifecycle.waiterStep, hw, ih]
      | succ j => simp [Lifecycle.run, Lifecycle.step, Lifecycle.waiterStep, hw, ih]

/-- The waiter's step on a closed channel: the exit hooks run once, the waiter finishes. -/
theorem Lifecycle.waiterStep_closed (life : Lifecycle W) (c : Nat) (ha : life.Armed c)
    (hc : life.chans.get? c = some Chan.isClosed) :
    (life.waiterStep 0).exitNotify = some c ∧
    (life.waiterStep 0).onceClose = life.onceClose ∧
    (life.waiterStep 0).waiters = [WaiterState.finished] ∧
    closeCalls (life.waiterStep 0).trace = closeCalls life.trace ∧
    exitRuns (life.waiterStep 0).trace
      = exitRuns life.trace ++ List.range life.exitHandlers.length := by
  obtain ⟨rs, hlen, htrace, hsame⟩ := Lifecycle.exit_spec life
  obtain ⟨_, _, hN, hO, _, hWt⟩ := hsame
  have hc1 : life.chans[c]? = some Chan.isClosed := by simpa using hc
  obtain ⟨hn, hw | hw⟩ := ha
  all_goals
    have hstep : life.waiterStep 0
        = { life.exit with waiters := life.waiters.set 0 WaiterState.finished } := by
      simp [Lifecycle.waiterStep, Lifecycle.receive, hw, hn, hc1]
    rw [hstep]
    refine ⟨by simp [hN, hn], by simp [hO], by simp [hw], ?_, ?_⟩
    · simp [htrace, closeCalls_append, closeCalls_exitEvents]
    · simp [htrace, exitRuns_append, exitRuns_exitEvents, hlen, List.range_eq_range']

/-- The waiter's step on an open channel: it blocks, nothing else changes. -/
theorem Lifecycle.waiterStep_open (life : Lifecycle W) (c : Nat) (ha : life.Armed c)
    (hc : life.chans.get? c = some Chan.isOpen) :
    (life.waiterStep 0).Armed c ∧
    (life.waiterStep 0).onceClose = life.onceClose ∧
    (life.waiterStep 0).chans = life.chans ∧
    (life.waiterStep 0).exitHandlers = life.exitHandlers ∧
    (life.waiterStep 0).trace = life.trace := by
  have hc1 : life.chans[c]? = some Chan.isOpen := by simpa using hc
  obtain ⟨hn, hw | hw⟩ := ha
  all_goals
    have hstep : life.waiterStep 0
        = { life with waiters := life.waiters.set 0 (WaiterState.blocked (some c)) } := by
      simp [Lifecycle.waiterStep, Lifecycle.receive, hw, hn, hc1]
    rw [hstep]
    exact ⟨⟨hn, Or.inr (by simp [hw])⟩, rfl, rfl, rfl, rfl⟩

/-- The other scheduler steps find no goroutine. -/
theorem Lifecycle.waiterStep_absent (life : Lifecycle W) (c j : Nat) (ha : life.Armed c) :
    life.waiterStep (j + 1) = life := by
  obtain ⟨_, hw | hw⟩ := ha <;> simp [Lifecycle.waiterStep, hw]

theorem closeCalls_spawnOkEvents (index count : Nat) :
    closeCalls (spawnOkEvents index count) = 0 := by
  induction count generalizing index with
  | zero => simp [spawnOkEvents, closeCalls]
  | succ n ih => rw [spawnOkEvents_succ]; simpa [closeCalls] using ih (index + 1)

/-- The waiter's step on a closed channel, against the callbacks: the exit hooks are
called in order from the world the waiter finds. -/
theorem Lifecycle.waiterStep_closed_eq (life : Lifecycle W) (c : Nat) (ha : life.Armed c)
    (hc : life.chans.get? c = some Chan.isClosed) :
    (life.waiterStep 0).world = (callsInOrder life.exitHandlers life.world).1 ∧
    (life.waiterStep 0).trace
      = life.trace ++ exitEvents 0 (callsInOrder life.exitHandlers life.world).2 := by
  have hc1 : life.chans[c]? = some Chan.isClosed := by simpa using hc
  obtain ⟨hn, hw | hw⟩ := ha
  all_goals
    have hstep : life.waiterStep 0
        = { life.exit with waiters := life.waiters.set 0 WaiterState.finished } := by
      simp [Lifecycle.waiterStep, Lifecycle.receive, hw, hn, hc1]
    rw [hstep, Lifecycle.exit_eq]
    exact ⟨rfl, rfl⟩

/-- The waiter's step on an open channel leaves the world as it is. -/
theorem Lifecycle.waiterStep_open_world (life : Lifecycle W) (c : Nat) (ha : life.Armed c)
    (hc : life.chans.get? c = some Chan.isOpen) :
    (life.waiterStep 0).world = life.world := by
  have hc1 : life.chans[c]? = some Chan.isOpen := by simpa using hc
  obtain ⟨hn, hw | hw⟩ := ha
  all_goals
    have hstep : life.waiterStep 0
        = { life with waiters := life.waiters.set 0 (WaiterState.blocked (some c)) } := by
      simp [Lifecycle.waiterStep, Lifecycle.receive, hw, hn, hc1]
    rw [hstep]

/-- After the channel is closed: further `NotifyExit` calls do nothing, and the first
step of the waiter runs the exit hooks once. -/
theorem Lifecycle.run_notified (sched : List LifecycleAction) (life : Lifecycle W) (c : Nat)
    (ha : life.Armed c) (ho : life.onceClose = true)
    (hc : life.chans.get? c = some Chan.isClosed) :
    ∃ life2, life.run sched = Except.ok life2 ∧
      closeCalls life2.trace = closeCalls life.trace ∧
      exitRuns life2.trace = exitRuns life.trace ++
        (if sched.contains (LifecycleAction.waiter 0) then List.range life.exitHandlers.length
         else []) ∧
      life2.world =
        (if sched.contains (LifecycleAction.waiter 0) then
          (callsInOrder life.exitHandlers life.world).1
         else life.world) ∧
      life2.trace = life.trace ++
        (if sched.contains (LifecycleAction.waiter 0) then
          exitEvents 0 (callsInOrder life.exitHandlers life.world).2
         else []) := by
  induction sched with
  | nil => exact ⟨life, rfl, rfl, by simp, by simp, by simp⟩
  | cons act rest ih =>
    cases act with
    | notifyExit =>
      obtain ⟨life2, hrun, hclose, hexit, hworld, htrace⟩ := ih
      refine ⟨life2, ?_, hclose, ?_, ?_, ?_⟩
      · simp [Lifecycle.run, Lifecycle.step, Lifecycle.NotifyExit, ha.1, ho, hrun]
      · simpa using hexit
      · simpa using hworld
      · simpa using htrace
    | waiter i =>
      cases i with
      | zero =>
        obtain ⟨hn1, ho1, hw1, hclose1, hexit1⟩ := Lifecycle.waiterStep_closed life c ha hc
        obtain ⟨hworld1, htrace1⟩ := Lifecycle.waiterStep_closed_eq life c ha hc
        refine ⟨life.waiterStep 0, ?_, hclose1, ?_, ?_, ?_⟩
        · simp only [Lifecycle.run, Lifecycle.step]
          exact Lifecycle.run_finished rest _ c hn1 (ho1.trans ho) hw1
        · simpa using hexit1
        · simpa using hworld1
        · simpa using htrace1
      | succ j =>
        obtain ⟨life2, hrun, hclose, hexit, hworld, htrace⟩ := ih
        refine ⟨life2, ?_, hclose, ?_, ?_, ?_⟩
        · simp only [Lifecycle.run, Lifecycle.step, Lifecycle.waiterStep_absent life c j ha]
          exact hrun
        · simpa using hexit
        · simpa using hworld
        · simpa using htrace

/-- Before the channel is closed: the waiter can only block, and the first `NotifyExit`
closes the channel. -/
theorem Lifecycle.run_armed (sched : List LifecycleAction) (life : Lifecycle W) (c : Nat)
    (ha : life.Armed c) (ho : life.onceClose = false)
    (hc : life.chans.get? c = some Chan.isOpen) :
    ∃ life2, life.run sched = Except.ok life2 ∧
      closeCalls life2.trace = closeCalls life.trace +
        (if sched.contains LifecycleAction.notifyExit then 1 else 0) ∧
      exitRuns life2.trace = exitRuns life.trace ++
        (if wakesAfterNotify sched then List.range life.exitHandlers.length else []) ∧
      life2.world =
        (if wakesAfterNotify sched then (callsInOrder life.exitHandlers life.world).1
         else life.world) ∧
      life2.trace = life.trace ++
        (if sched.contains LifecycleAction.notifyExit then [LifecycleEvent.closeExitNotify c]
         else []) ++
        (if wakesAfterNotify sched then
          exitEvents 0 (callsInOrder life.exitHandlers life.world).2
         else []) := by
  induction sched generalizing life with
  | nil => exact ⟨life, rfl, by simp, by simp [wakesAfterNotify], by simp [wakesAfterNotify],
      by simp [wakesAfterNotify]⟩
  | cons act rest ih =>
    cases act with
    | notifyExit =>
      have hc1 : life.chans[c]? = some Chan.isOpen := by simpa using hc
      have hlt : c < life.chans.length := by
        by_contra hge
        rw [List.getElem?_eq_none (Nat.le_of_not_lt hge)] at hc1
        cases hc1
      have hnotify : life.NotifyExit = Except.ok
          { life with chans := life.chans.set c Chan.isClosed, onceClose := true,
                      trace := life.trace ++ [LifecycleEvent.closeExitNotify c] } := by
        simp [Lifecycle.NotifyExit, ha.1, ho, hc1, Chan.close]
      obtain ⟨life2, hrun, hclose, hexit, hworld, htrace⟩ := Lifecycle.run_notified rest
        { life with chans := life.chans.set c Chan.isClosed, onceClose := true,
                    trace := life.trace ++ [LifecycleEvent.closeExitNotify c] } c
        ha rfl (by simp [hlt])
      refine ⟨life2, ?_, ?_, ?_, ?_, ?_⟩
      · simp only [Lifecycle.run, Lifecycle.step, hnotify]
        exact hrun
      · rw [hclose]
        simp [closeCalls_append, closeCalls]
      · rw [hexit]
        simp [exitRuns_append, exitRuns, wakesAfterNotify]
      · rw [hworld]
        simp [wakesAfterNotify]
      · rw [htrace]
        simp [wakesAfterNotify]
    | waiter i =>
      cases i with
      | zero =>
        obtain ⟨ha1, ho1, hc1, he1, ht1⟩ := Lifecycle.waiterStep_open life c ha hc
        have hw1 := Lifecycle.waiterStep_open_world life c ha hc
        obtain ⟨life2, hrun, hclose, hexit, hworld, htrace⟩ :=
          ih (life.waiterStep 0) ha1 (ho1.trans ho) (by rw [hc1]; exact hc)
        refine ⟨life2, ?_, ?_, ?_, ?_, ?_⟩
        · simp only [Lifecycle.run, Lifecycle.step]
          exact hrun
        · rw [hclose, ht1]
          simp
        · rw [hexit, ht1, he1]
          simp [wakesAfterNotify]
        · rw [hworld, hw1, he1]
          simp [wakesAfterNotify]
        · rw [htrace, ht1, hw1, he1]
          simp [wakesAfterNotify]
      | succ j =>
        obtain ⟨life2, hrun, hclose, hexit, hworld, htrace⟩ := ih life ha ho hc
        refine ⟨life2, ?_, ?_, ?_, ?_, ?_⟩
        · simp only [Lifecycle.run, Lifecycle.step, Lifecycle.waiterStep_absent life c j ha]
          exact hrun
        · rw [hclose]
          simp
        · rw [hexit]
          simp [wakesAfterNotify]
        · rw [hworld]
          simp [wakesAfterNotify]
        · rw [htrace]
          simp [wakesAfterNotify]

/-- A successful `Execute` with exit hooks registered, in full: every spawn hook was
called in order, a fresh open channel is the notification channel, the once flag is reset
and one waiter is added. -/
theorem Lifecycle.Execute_success_eq (life : Lifecycle W)
    (hok : ∀ r ∈ (callsInOrder life.spawnHandlers life.world).2, r = none)
    (hexit : life.exitHandlers.length ≠ 0) :
    life.Execute =
      ({ life with
          world := (callsInOrder life.spawnHandlers life.world).1,
          trace := life.trace ++ spawnOkEvents 0 life.spawnHandlers.length,
          exitNotify := some life.chans.length,
          chans := life.chans ++ [Chan.isOpen],
          onceClose := false,
          waiters := life.waiters ++ [WaiterState.notStarted] }, none) := by
  have hspawn : life.spawn =
      ({ life with world := (callsInOrder life.spawnHandlers life.world).1,
                   trace := life.trace ++ spawnOkEvents 0 life.spawnHandlers.length },
        none) := by
    by_cases h0 : life.spawnHandlers.length = 0
    · have hnil : life.spawnHandlers = [] := List.length_eq_zero.mp h0
      cases life
      simp only at hnil
      subst hnil
      simp [Lifecycle.spawn, callsInOrder, spawnOkEvents]
    · simp only [Lifecycle.spawn, h0, if_false]
      exact Lifecycle.spawnFrom_success_eq life.spawnHandlers life 0 hok
  simp only [Lifecycle.Execute, hspawn, hexit, if_false]

/-- C4. For every Lifecycle without an earlier waiter, with at least one exit hook
registered, whose spawn hooks all succeed: `Execute` succeeds, and for every schedule of
`NotifyExit` calls and scheduler steps that follows: the run does not panic (no double
close); the notification channel is closed exactly once if the schedule contains at least
one `NotifyExit` and never otherwise; and the exit hooks are run exactly once each, in
registration order, if the waiter is scheduled at some point after a `NotifyExit`, and
not at all otherwise, in particular not at all with zero `NotifyExit` calls.  The run of
the exit hooks is the call of every exit hook, in order, on the world the one before
left, starting from the world the spawn hooks left: the final world and the logged
results are the ones of those calls. -/
theorem Lifecycle.NotifyExit_once (life : Lifecycle W) (sched : List LifecycleAction)
    (hw : life.waiters = [])
    (hok : ∀ r ∈ (callsInOrder life.spawnHandlers life.world).2, r = none)
    (hexit : life.exitHandlers.length ≠ 0) :
    life.Execute.2 = none ∧
    ∃ life2, life.Execute.1.run sched = Except.ok life2 ∧
      closeCalls life2.trace = closeCalls life.trace +
        (if sched.contains LifecycleAction.notifyExit then 1 else 0) ∧
      exitRuns life2.trace = exitRuns life.trace ++
        (if wakesAfterNotify sched then List.range life.exitHandlers.length else []) ∧
      (sched.contains LifecycleAction.notifyExit = false →
        exitRuns life2.trace = exitRuns life.trace) ∧
      life2.world =
        (if wakesAfterNotify sched then
          (callsInOrder life.exitHandlers
            (callsInOrder life.spawnHandlers life.world).1).1
         else (callsInOrder life.spawnHandlers life.world).1) ∧
      life2.trace = life.trace ++ spawnOkEvents 0 life.spawnHandlers.length ++
        (if sched.contains LifecycleAction.notifyExit then
          [LifecycleEvent.closeExitNotify life.chans.length]
         else []) ++
        (if wakesAfterNotify sched then
          exitEvents 0 (callsInOrder life.exitHandlers
            (callsInOrder life.spawnHandlers life.world).1).2
         else []) := by
  have hexec := Lifecycle.Execute_success_eq life hok hexit
  have ha : life.Execute.1.Armed life.chans.length := by
    rw [hexec]
    exact ⟨rfl, Or.inl (by simp [hw])⟩
  have hO : life.Execute.1.onceClose = false := by rw [hexec]
  have hC : life.Execute.1.chans.get? life.chans.length = some Chan.isOpen := by
    rw [hexec]
    simp
  have hE : life.Execute.1.exitHandlers = life.exitHandlers := by rw [hexec]
  have hW : life.Execute.1.world = (callsInOrder life.spawnHandlers life.world).1 := by
    rw [hexec]
  have hT : life.Execute.1.trace
      = life.trace ++ spawnOkEvents 0 life.spawnHandlers.length := by
    rw [hexec]
  obtain ⟨life2, hrun, hclose, hruns, hworld, htrace⟩ := Lifecycle.run_armed sched
    life.Execute.1 life.chans.length ha hO hC
  have hruns1 : exitRuns life2.trace = exitRuns life.trace ++
      (if wakesAfterNotify sched then List.range life.exitHandlers.length else []) := by
    rw [hruns, hT, exitRuns_append, exitRuns_spawnOkEvents, hE]
    simp
  refine ⟨by rw [hexec], life2, hrun, ?_, hruns1, ?_, ?_, ?_⟩
  · rw [hclose, hT, closeCalls_append, closeCalls_spawnOkEvents]
    simp
  · intro hnone
    have hno : wakesAfterNotify sched = false := by
      clear hrun hclose hruns hruns1 hworld htrace
      induction sched with
      | nil => rfl
      | cons act rest ih =>
        cases act with
        | notifyExit => simp at hnone
        | waiter i =>
          simp only [wakesAfterNotify]
          exact ih (by simpa using hnone)
    rw [hruns1, hno]
    simp
  · rw [hworld, hW, hE]
  · rw [htrace, hT, hW, hE]

/-- C4 at the sample Lifecycle and the schedule: waiter, `NotifyExit` three times,
waiter twice, `NotifyExit`.  The spawn hooks leave the world `2`; the exit hooks add `10`
and `20`, the first one failing. -/
theorem Lifecycle.NotifyExit_once_witness :
    ∃ life2, sampleLifecycleOk.Execute.1.run
        [LifecycleAction.waiter 0, LifecycleAction.notifyExit, LifecycleAction.notifyExit,
         LifecycleAction.notifyExit, LifecycleAction.waiter 0, LifecycleAction.waiter 0,
         LifecycleAction.notifyExit] = Except.ok life2 ∧
      closeCalls life2.trace = closeCalls sampleLifecycleOk.trace + 1 ∧
      exitRuns life2.trace = exitRuns sampleLifecycleOk.trace ++ [0, 1] ∧
      life2.world = 32 ∧
      life2.trace =
        [LifecycleEvent.spawn 0 none, LifecycleEvent.spawn 1 none,
         LifecycleEvent.closeExitNotify 0,
         LifecycleEvent.exit 0 (some (Error.other "exit")), LifecycleEvent.exit 1 none] := by
  obtain ⟨_, life2, hrun, hclose, hruns, _, hworld, htrace⟩ :=
    Lifecycle.NotifyExit_once sampleLifecycleOk
      [LifecycleAction.waiter 0, LifecycleAction.notifyExit, LifecycleAction.notifyExit,
       LifecycleAction.notifyExit, LifecycleAction.waiter 0, LifecycleAction.waiter 0,
       LifecycleAction.notifyExit] rfl (by decide) (by decide)
  exact ⟨life2, hrun, hclose, hruns, hworld, htrace⟩

/-! ## Hub: the exit paths -/

theorem Artist.hubExitFrom_spec (hooks : List (W → S → W)) (hub : Artist W S) (sess : S)
    (index : Nat) :
    (hub.exitFrom sess index hooks).trace
      = hub.trace ++ (List.range' index hooks.length).map (fun i => HubEvent.exitHook i sess) ∧
    (hub.exitFrom sess index hooks).sessions = hub.sessions ∧
    (hub.exitFrom sess index hooks).tasks = hub.tasks ∧
    (hub.exitFrom sess index hooks).wg = hub.wg ∧
    (hub.exitFrom sess index hooks).isStop = hub.isStop ∧
    (hub.exitFrom sess index hooks).exitHandlers = hub.exitHandlers := by
  induction hooks generalizing hub index with
  | nil => simp [Artist.exitFrom]
  | cons action rest ih =>
    obtain ⟨h1, h2, h3, h4, h5, h6⟩ := ih
      { hub with world := action hub.world sess,
                 trace := hub.trace ++ [HubEvent.exitHook index sess] } (index + 1)
    simp only [Artist.exitFrom]
    refine ⟨?_, h2, h3, h4, h5, h6⟩
    rw [h1]
    simp [List.range']

/-- One call of `exit`: every exit hook once, in registration order, then the member's
`Stop`, and the member is no longer in the membership. -/
theorem Artist.hubExit_spec [DecidableEq S] (hub : Artist W S) (sess : S) :
    (hub.exit sess).trace = hub.trace ++ exitPathEvents hub.exitHandlers.length sess ∧
    (hub.exit sess).sessions = hub.sessions.filter (fun s => s ≠ sess) ∧
    (hub.exit sess).tasks = hub.tasks ∧
    (hub.exit sess).wg = hub.wg ∧
    (hub.exit sess).isStop = hub.isStop ∧
    (hub.exit sess).exitHandlers = hub.exitHandlers := by
  obtain ⟨h1, h2, h3, h4, h5, h6⟩ := Artist.hubExitFrom_spec hub.exitHandlers
    { hub with sessions := hub.sessions.filter (fun s => s ≠ sess) } sess 0
  simp only [Artist.exit]
  refine ⟨?_, h2, h3, h4, h5, h6⟩
  rw [h1]
  simp [exitPathEvents]

/-! ## C5: the exit paths of a member -/

/-- C5, as stated, fails.  On the sample Hub with the members `7` and `8` joined through
`Connect`, `Hub.Stop` followed by the exit task it started for `7` and then by the
listener task of `7` (its `Listen` has returned, the session being stopped) runs without
panic, and the Hub's exit hook has been run twice for member `7` and the Hub has called
the `Stop` of member `7` twice. -/
theorem Artist.exit_once_counterexample :
    sampleHub2.sessions = [7, 8] ∧
    sampleHub2.pending = [HubTask.listener 7, HubTask.listener 8] ∧
    (sampleHub2.run [HubAction.stop, HubAction.task 2, HubAction.task 0]).toOption.map
        (fun hub => hub.trace.drop sampleHub2.trace.length)
      = some [HubEvent.exitHook 0 7, HubEvent.sessStop 7,
              HubEvent.exitHook 0 7, HubEvent.sessStop 7] ∧
    (sampleHub2.run [HubAction.stop, HubAction.task 2, HubAction.task 0]).toOption.map
        (fun hub => (hub.trace.count (HubEvent.exitHook 0 7), hub.trace.count (HubEvent.sessStop 7)))
      = some (2, 2) := by
  decide

/-- One call of `exit`, in full, against the callbacks: the member leaves the membership,
every exit hook is called on it in registration order, then its `Stop`. -/
theorem Artist.hubExit_eq [DecidableEq S] (hub : Artist W S) (sess : S) :
    hub.exit sess =
      { hub with
          sessions := hub.sessions.filter (fun s => s ≠ sess),
          world := hub.sessionStop
            (hub.exitHandlers.foldl (fun w action => action w sess) hub.world) sess,
          trace := hub.trace ++ exitPathEvents hub.exitHandlers.length sess } := by
  have hloop : ∀ (hooks : List (W → S → W)) (h : Artist W S) (index : Nat),
      h.exitFrom sess index hooks =
        { h with
            world := hooks.foldl (fun w action => action w sess) h.world,
            trace := h.trace ++
              (List.range' index hooks.length).map (fun i => HubEvent.exitHook i sess) } := by
    intro hooks
    induction hooks with
    | nil =>
      intro h index
      cases h
      simp [Artist.exitFrom]
    | cons action rest ih =>
      intro h index
      simp only [Artist.exitFrom]
      rw [ih]
      simp [List.range']
  simp only [Artist.exit, hloop]
  simp [exitPathEvents]

/-- C5, amended.  For every Hub and every goroutine of it that is an exit path of a
member and has not run yet (the listener task of the member, or the exit task that
`Hub.Stop` started for it): when it fires, it calls every exit hook of the Hub on the
member once, in registration order, then calls the member's `Stop` once; the member is
then not in the membership; and the goroutine is marked as run, so this path does not fire
again.  That is the whole of the listener path; on the path started by `Hub.Stop` the
deferred `wg.Done()` follows, on the state so reached. -/
theorem Artist.exit_path_fires_once [DecidableEq S] (hub : Artist W S) (i : Nat)
    (task : HubTask S) (sess : S)
    (hget : hub.tasks.get? i = some (task, false))
    (hpath : task = HubTask.listener sess ∨ task = HubTask.stopExit sess) :
    ∃ hub1,
      hub1 = { hub with
                sessions := hub.sessions.filter (fun s => s ≠ sess),
                world := hub.sessionStop
                  (hub.exitHandlers.foldl (fun w action => action w sess) hub.world) sess,
                trace := hub.trace ++ exitPathEvents hub.exitHandlers.length sess,
                tasks := hub.tasks.set i (task, true) } ∧
      sess ∉ hub1.sessions ∧
      hub1.tasks.get? i = some (task, true) ∧
      hub1.runTask i = Except.ok hub1 ∧
      (task = HubTask.listener sess → hub.runTask i = Except.ok hub1) ∧
      (task = HubTask.stopExit sess →
        hub.runTask i = hub1.wgDone ∧
        ∀ hub2, hub1.wgDone = Except.ok hub2 → hub2.runTask i = Except.ok hub2) := by
  have hget1 : hub.tasks[i]? = some (task, false) := by simpa using hget
  have hlt : i < hub.tasks.length := by
    by_contra hge
    rw [List.getElem?_eq_none (Nat.le_of_not_lt hge)] at hget1
    cases hget1
  refine ⟨_, rfl, by simp, by simp [hlt], by simp [Artist.runTask, hlt], ?_, ?_⟩
  · intro hl
    subst hl
    simp [Artist.runTask, hget1, Artist.hubExit_eq]
  · intro hs
    subst hs
    refine ⟨by simp [Artist.runTask, hget1, Artist.hubExit_eq], ?_⟩
    intro hub2 hdone
    simp only [Artist.wgDone] at hdone
    split at hdone
    · cases hdone
    · injection hdone with hdone
      subst hdone
      simp [Artist.runTask, hlt]

/-- C5 amended, at the sample Hub with the one member `7` after `Stop` has returned: the
exit task of `7` fires with the wait-group counter at `0`; it runs the exit hook and the
member's `Stop`, and its deferred `wg.Done()` then panics. -/
theorem Artist.exit_path_fires_once_witness :
    sampleHub1Stopped.tasks.get? 1 = some (HubTask.stopExit 7, false) ∧
    sampleHub1Stopped.wg = 0 ∧
    ∃ hub1 : Artist Nat Nat,
      hub1.trace = sampleHub1Stopped.trace ++ [HubEvent.exitHook 0 7, HubEvent.sessStop 7] ∧
      7 ∉ hub1.sessions ∧
      hub1.tasks.get? 1 = some (HubTask.stopExit 7, true) ∧
      sampleHub1Stopped.runTask 1 = hub1.wgDone ∧
      panicOf hub1.wgDone = some Panic.negativeWaitGroupCounter := by
  obtain ⟨hub1, heq, hmem, htask, _, _, hstop⟩ :=
    Artist.exit_path_fires_once sampleHub1Stopped 1 (HubTask.stopExit 7) 7
      (by decide) (Or.inr rfl)
  refine ⟨by decide, by decide, hub1, ?_, hmem, htask, (hstop rfl).1, ?_⟩
  · rw [heq]
    rfl
  · rw [heq]
    rfl

/-! ## C6: `Stop` and its wait group -/

/-- C6 fails on the code: the last statement of `Stop` is `wg.Done()`, not `wg.Wait()`.
On the running sample Hub without members `Stop` panics with a negative wait-group
counter.  On the sample Hub with the one member `7`, `Stop` returns with the stop flag
set while the exit of `7` has not run (no exit hook in the trace, the exit task still
pending, and `7` still in the membership), the counter being `0` already; the exit task
then runs the exit and panics at its own `wg.Done()`. -/
theorem Artist.Stop_waitgroup_unbalanced :
    sampleHub.isStop = false ∧ sampleHub.sessions = [] ∧
    panicOf sampleHub.Stop = some Panic.negativeWaitGroupCounter ∧
    sampleHub1.isStop = false ∧ sampleHub1.sessions = [7] ∧
    sampleHub1.Stop.toOption.map (fun hub => (hub.isStop, hub.wg)) = some (true, 0) ∧
    sampleHub1.Stop.toOption.map (fun hub => hub.pending)
      = some [HubTask.listener 7, HubTask.stopExit 7] ∧
    sampleHub1.Stop.toOption.map
        (fun hub => (hub.sessions, hub.trace.drop sampleHub1.trace.length))
      = some ([7], []) ∧
    panicOf (sampleHub1.run [HubAction.stop, HubAction.task 1])
      = some Panic.negativeWaitGroupCounter := by
  decide

/-! ## C7: `Connect` on a stopped Hub -/

/-- C7. For every Hub whose stop flag is set, every adapter factory and every session
constructor: `Connect` returns the Closed error and no session, and the Hub it leaves is
the Hub it found: the same world and trace (the factory was not invoked and no spawn hook
ran), the same membership and the same goroutines. -/
theorem Artist.Connect_stopped [DecidableEq S] {A : Type} (hub : Artist W S)
    (newAdapter : W → W × Except Error A) (NewSession : A → Except Error S)
    (hstop : hub.isStop = true) :
    ∃ err, hub.Connect newAdapter NewSession = (hub, Except.error err) ∧
      err.isClosed = true ∧
      (hub.Connect newAdapter NewSession).1.trace = hub.trace ∧
      (hub.Connect newAdapter NewSession).1.sessions = hub.sessions := by
  have h : hub.Connect newAdapter NewSession
      = (hub, Except.error (ErrorWrapWithMessage Error.ErrClosed "Artifex hub")) := by
    simp [Artist.Connect, hstop]
  refine ⟨_, h, ?_, ?_, ?_⟩
  · simp [ErrorWrapWithMessage, Error.isClosed]
  · rw [h]
  · rw [h]

/-- C7 at the sample Hub with member `7`, stopped. -/
theorem Artist.Connect_stopped_witness :
    ∃ err, ({ sampleHub1 with isStop := true }).Connect (sampleFactory 8) sampleNewSession
        = ({ sampleHub1 with isStop := true }, Except.error err) ∧
      err.isClosed = true ∧
      (({ sampleHub1 with isStop := true }).Connect (sampleFactory 8) sampleNewSession).1.trace
        = ({ sampleHub1 with isStop := true }).trace ∧
      (({ sampleHub1 with isStop := true }).Connect (sampleFactory 8) sampleNewSession).1.sessions
        = ({ sampleHub1 with isStop := true }).sessions :=
  Artist.Connect_stopped { sampleHub1 with isStop := true } (sampleFactory 8) sampleNewSession rfl

/-! ## C8: `FindSession` reads its result before the fan-out has run -/

/-- C8 fails on the code: `FindSession` goes through `DoAsyncAction`, which starts one
goroutine per member and returns without waiting for them.  On the running sample Hub
with the one member `7` and the filter that accepts every session: when the caller runs
alone until `DoAsyncAction` returns, `FindSession` returns `(nil, false)`, although `7` is
a member and satisfies the filter; when the goroutine happens to run its callback before
the return, it returns `(7, true)`.  The result depends on the schedule, not only on the
membership and the filter. -/
theorem Artist.FindSession_not_synchronous :
    sampleHub1.isStop = false ∧ sampleHub1.sessions = [7] ∧
    sampleHub1.FindSession (fun _ => true) [] = (none, false) ∧
    sampleHub1.FindSession (fun _ => true)
        [AsyncAction.loop, AsyncAction.start 0, AsyncAction.finish 0] = (some 7, true) := by
  decide

/-! ## C9: `FindSessions` is the filter of the membership -/

theorem doSyncLoop_collect (filter : S → Bool) (acc : List S) (sessions : List S) :
    doSyncLoop (fun (acc : List S) sess => (if filter sess then acc ++ [sess] else acc, false))
        acc sessions
      = acc ++ sessions.filter filter := by
  induction sessions generalizing acc with
  | nil => simp [doSyncLoop]
  | cons sess rest ih =>
    cases hf : filter sess <;> simp [doSyncLoop, hf, ih]

theorem doSyncLoop_count (filter : S → Bool) (cnt : Nat) (sessions : List S) :
    doSyncLoop (fun (cnt : Nat) sess => (if filter sess then cnt + 1 else cnt, false))
        cnt sessions
      = cnt + (sessions.filter filter).length := by
  induction sessions generalizing cnt with
  | nil => simp [doSyncLoop]
  | cons sess rest ih =>
    cases hf : filter sess
    · simp [doSyncLoop, hf, ih]
    · simp [doSyncLoop, hf, ih]
      omega

/-- C9. For every Hub and every filter.  On a running Hub `FindSessions` returns the
members that satisfy the filter, in the order of the scan; the length of that list is
`Count(filter)`; `found` is true exactly when the list is not empty; and, the membership
being a set (the keys of a map: no duplicates), every session occurs in the list once if
it is a current member satisfying the filter and not at all otherwise.  On a stopped Hub
`FindSessions` returns the empty list and false. -/
theorem Artist.FindSessions_spec [DecidableEq S] (hub : Artist W S) (filter : S → Bool) :
    (hub.isStop = false →
      (hub.FindSessions filter).1 = hub.sessions.filter filter ∧
      (hub.FindSessions filter).1.length = hub.Count filter ∧
      ((hub.FindSessions filter).2 = true ↔ (hub.FindSessions filter).1 ≠ []) ∧
      (hub.sessions.Nodup → ∀ sess : S, (hub.FindSessions filter).1.count sess
          = if sess ∈ hub.sessions ∧ filter sess = true then 1 else 0)) ∧
    (hub.isStop = true → hub.FindSessions filter = ([], false)) := by
  constructor
  · intro hrun
    have hlist : (hub.FindSessions filter).1 = hub.sessions.filter filter := by
      simp [Artist.FindSessions, Artist.DoSyncAction, hrun, doSyncLoop_collect]
    have hfound : (hub.FindSessions filter).2
        = decide ((hub.FindSessions filter).1.length > 0) := rfl
    refine ⟨hlist, ?_, ?_, ?_⟩
    · rw [hlist]
      simp [Artist.Count, Artist.DoSyncAction, hrun, doSyncLoop_count]
    · rw [hfound]
      simp [List.length_pos]
    · intro hnodup sess
      rw [hlist, List.count_eq_of_nodup (hnodup.filter _)]
      simp [List.mem_filter]
  · intro hstop
    simp [Artist.FindSessions, Artist.DoSyncAction, hstop]

/-- C9 at the sample Hub with members `7` and `8` and the filter "is `8`". -/
theorem Artist.FindSessions_spec_witness :
    sampleHub2.FindSessions (fun sess => sess == 8) = ([8], true) ∧
    sampleHub2.Count (fun sess => sess == 8) = 1 ∧
    (sampleHub2.isStop = false →
      (sampleHub2.FindSessions (fun sess => sess == 8)).1
          = sampleHub2.sessions.filter (fun sess => sess == 8) ∧
      (sampleHub2.FindSessions (fun sess => sess == 8)).1.length
          = sampleHub2.Count (fun sess => sess == 8) ∧
      ((sampleHub2.FindSessions (fun sess => sess == 8)).2 = true
          ↔ (sampleHub2.FindSessions (fun sess => sess == 8)).1 ≠ []) ∧
      (sampleHub2.sessions.Nodup → ∀ sess : Nat,
        (sampleHub2.FindSessions (fun sess => sess == 8)).1.count sess
          = if sess ∈ sampleHub2.sessions ∧ (sess == 8) = true then 1 else 0)) :=
  ⟨by decide, by decide, (Artist.FindSessions_spec sampleHub2 (fun sess => sess == 8)).1⟩

/-! ## C10: the concurrency ceiling of `DoAsyncAction` -/

/-- C10 fails on the code: `DoAsyncAction` makes a new semaphore channel in every
iteration of its loop, so the send that should acquire a slot never blocks.  On the sample
Hub with ceiling `1` and the two members `7` and `8`: after the caller has run two
iterations (two channels made, one item in each) and the two goroutines have entered
their callbacks, two callbacks are executing at once, more than the ceiling. -/
theorem Artist.DoAsyncAction_exceeds_ceiling :
    sampleHub2.concurrencyQty = 1 ∧ sampleHub2.sessions = [7, 8] ∧
    ((sampleHub2.DoAsyncAction ()).run (fun _ _ => ())
        [AsyncAction.loop, AsyncAction.loop, AsyncAction.start 0, AsyncAction.start 1]).chans
      = [1, 1] ∧
    ((sampleHub2.DoAsyncAction ()).run (fun _ _ => ())
        [AsyncAction.loop, AsyncAction.loop, AsyncAction.start 0, AsyncAction.start 1]).tasks
      = [(7, AsyncPhase.running), (8, AsyncPhase.running)] ∧
    ((sampleHub2.DoAsyncAction ()).run (fun _ _ => ())
        [AsyncAction.loop, AsyncAction.loop, AsyncAction.start 0, AsyncAction.start 1]).runningCount
      = 2 := by
  decide

/-! ## C11: two interleaved calls of `Stop` -/

/-- One call of `Stop` running alone through its steps is the method `Stop`: the check of
the flag, the deregistration, then the closing critical section. -/
theorem Adapter.Stop_eq_steps (adp : Adapter W Ingress Egress) :
    adp.Stop =
      if adp.isStopped then
        Except.ok (adp, some (ErrorWrapWithMessage Error.ErrClosed "Artifex adapter"))
      else adp.deregister.stopLocked := by
  cases hs : adp.isStopped
  · cases hh : adp.hub <;> cases hw : adp.waitStop <;>
      simp [Adapter.Stop, Adapter.stopLocked, Adapter.deregister, hs, hh, hw, Chan.close]
  · simp [Adapter.Stop, hs]

/-- C11 fails on the code.  On the sample Adapter (joined to a Hub, not stopped, signal
open) with two calls of `Stop`: call 0 and then call 1 pass the check of the stop flag and
release the lock; call 0 deregisters and runs the closing critical section (the signal is
closed once, the stop function has run once); call 1 deregisters too, and when it then
runs the closing critical section, which does not look at the flag again, its
`close(adp.waitStop)` hits the closed channel and panics. -/
theorem StopRace.double_close :
    sampleAdapter.isStopped = false ∧ sampleAdapter.hub.isSome = true ∧
    sampleAdapter.waitStop = Chan.isOpen ∧
    (StopRace.run { adp := sampleAdapter, calls := [StopPc.entry, StopPc.entry] }
        [0, 1, 0, 0, 1]).toOption.map (fun race => race.calls)
      = some [StopPc.returned (some (Error.other "stop")), StopPc.removed] ∧
    (StopRace.run { adp := sampleAdapter, calls := [StopPc.entry, StopPc.entry] }
        [0, 1, 0, 0, 1]).toOption.map
          (fun race => (race.adp.isStopped, race.adp.waitStop, waitStopCloses race.adp.trace))
      = some (true, Chan.isClosed, 1) ∧
    (StopRace.run { adp := sampleAdapter, calls := [StopPc.entry, StopPc.entry] }
        [0, 1, 0, 0, 1]).toOption.map
          (fun race => (stopCalls race.adp.trace, removeCalls race.adp.trace))
      = some (1, 2) ∧
    panicOf (StopRace.run { adp := sampleAdapter, calls := [StopPc.entry, StopPc.entry] }
        [0, 1, 0, 0, 1, 1]) = some Panic.closeOfClosedChannel := by
  decide

/-! ## C14: the receive loop -/

/-- After `init` the once flag is set. -/
theorem Subscriber.init_once (sub : Subscriber W M) : sub.init.1.onceInit = true := by
  cases ho : sub.onceInit
  · cases he : sub.Lifecycle.Execute.2 with
    | some err => simp [Subscriber.init, ho, he]
    | none =>
      by_cases hm : (sub.HandleRecv.isNone || sub.AdapterStop.isNone || sub.AdapterRecv.isNone)
          = true
      · simp [Subscriber.init, ho, he, hm]
      · simp [Subscriber.init, ho, he, hm]
  · simp [Subscriber.init, ho]

/-- A Subscriber on which `Stop` has returned has its once flag set. -/
theorem Subscriber.Stop_once (sub sub1 : Subscriber W M) (r1 : Option Error)
    (h : sub.Stop = Except.ok (sub1, r1)) : sub1.onceInit = true := by
  have hinit := Subscriber.init_once sub
  simp only [Subscriber.Stop] at h
  split at h
  · injection h with h
    injection h with h _
    rw [← h]
    exact hinit
  · split at h
    · injection h with h
      injection h with h _
      rw [← h]
      exact hinit
    · split at h
      · cases h
      · split at h
        · cases h
        · injection h with h
          injection h with h _
          rw [← h]
          exact hinit

/-- C13, as stated, fails.  On the sample Subscriber, which has all its callbacks, the
first `Stop` returns nil, sets the stop flag and calls `AdapterStop` once; the second
`Stop` returns nil again, not the Closed error (and `AdapterStop` has still been called
once). -/
theorem Subscriber.Stop_again_counterexample :
    sampleSubscriber.Stop.toOption.map
        (fun r => (r.2, r.1.isStop, subscriberStops r.1.trace)) = some (none, true, 1) ∧
    sampleSubscriber.StopAgain.toOption.map
        (fun r => (r.2, r.1.isStop, subscriberStops r.1.trace)) = some (none, true, 1) ∧
    sampleSubscriber.StopAgain.toOption.map
        (fun r => r.2.map (fun err => err.isClosed)) = some none := by
  decide

/-- C13, amended.  For every Subscriber on which `Stop` has returned and which is stopped:
a further `Stop()` returns nil and the very same Subscriber state (same world, same
traces), so it invokes neither the bound stop function nor the exit notification
again. -/
theorem Subscriber.Stop_stopped_nil (sub sub1 : Subscriber W M) (r1 : Option Error)
    (hfirst : sub.Stop = Except.ok (sub1, r1)) (hstopped : sub1.isStop = true) :
    sub1.Stop = Except.ok (sub1, none) := by
  have honce := Subscriber.Stop_once sub sub1 r1 hfirst
  simp [Subscriber.Stop, Subscriber.init, honce, hstopped]

/-- C13 amended, at the sample Subscriber after its first `Stop`. -/
theorem Subscriber.Stop_stopped_nil_witness :
    ∃ sub1 r1, sampleSubscriber.Stop = Except.ok (sub1, r1) ∧ sub1.isStop = true ∧
      sub1.Stop = Except.ok (sub1, none) :=
  ⟨_, _, rfl, rfl, Subscriber.Stop_stopped_nil sampleSubscriber _ _ rfl rfl⟩

/-! ## C16: the initialization guard of the Subscriber -/

/-- C16 fails on the code: `init` keeps its error in a local variable that only the first
call sets.  On the sample Subscriber without `HandleRecv`: the first `Stop` returns the
invalid-parameter error and calls nothing; the second `Stop` returns nil and has called
the present `AdapterStop`.  Likewise the first `Listen` returns the invalid-parameter
error and calls nothing, and the second `Listen` enters the receive loop and panics on the
nil `HandleRecv`.  On the sample Subscriber without `AdapterStop` the second `Stop` panics
on the nil `AdapterStop`. -/
theorem Subscriber.init_guard_first_call_only :
    sampleSubscriberNoHandler.Stop.toOption.map (fun r => (r.2, r.1.trace))
      = some (some (ErrorWrapWithMessage Error.ErrInvalidParameter "subscriber"), []) ∧
    sampleSubscriberNoHandler.StopAgain.toOption.map (fun r => (r.2, r.1.trace))
      = some (none, [SubscriberEvent.adapterStop none]) ∧
    (sampleSubscriberNoHandler.Listen runOnce 5 []).toOption.map
        (fun r => r.map (fun x => (x.2, x.1.trace)))
      = some (some (some (ErrorWrapWithMessage Error.ErrInvalidParameter "subscriber"), [])) ∧
    panicOf (sampleSubscriberNoHandler.ListenAgain runOnce 5 [])
      = some Panic.nilFunctionCall ∧
    sampleSubscriberNoStop.Stop.toOption.map (fun r => (r.2, r.1.trace))
      = some (some (ErrorWrapWithMessage Error.ErrInvalidParameter "subscriber"), []) ∧
    panicOf sampleSubscriberNoStop.StopAgain = some Panic.nilFunctionCall := by
  decide

/-! ## C12: Shutdown runs every stop action once and then closes `done` -/

theorem actionNumbers_append (xs ys : List ShutdownEvent) :
    actionNumbers (xs ++ ys) = actionNumbers xs ++ actionNumbers ys := by
  induction xs with
  | nil => simp [actionNumbers]
  | cons x xs ih => cases x <;> simp [actionNumbers, ih]

theorem Shutdown.register_fields (regs : List (String × (W → W × Option Error)))
    (s : Shutdown W) :
    (s.register regs).names = s.names ++ regs.map Prod.fst ∧
    (s.register regs).stopActions = s.stopActions ++ regs.map Prod.snd ∧
    (s.register regs).stopQty = s.stopQty + regs.length ∧
    (s.register regs).done = s.done ∧ (s.register regs).trace = s.trace ∧
    (s.register regs).pending = s.pending ∧ (s.register regs).wg = s.wg ∧
    (s.register regs).phase = s.phase := by
  induction regs generalizing s with
  | nil => simp [Shutdown.register]
  | cons pair rest ih =>
    obtain ⟨h1, h2, h3, h4, h5, h6, h7, h8⟩ := ih (s.SetStopAction pair.1 pair.2)
    simp only [Shutdown.register]
    refine ⟨?_, ?_, ?_, h4, h5, h6, h7, h8⟩
    · rw [h1]; simp [Shutdown.SetStopAction]
    · rw [h2]; simp [Shutdown.SetStopAction]
    · rw [h3]; simp [Shutdown.SetStopAction]; omega

/-- The invariant holds right after the registrations and `Listen`. -/
theorem Shutdown.Inv_init (regs : List (String × (W → W × Option Error))) (world : W) :
    Shutdown.Inv regs ((NewShutdown world).register regs).Listen := by
  obtain ⟨h1, h2, h3, h4, h5, h6, h7, _⟩ := Shutdown.register_fields regs (NewShutdown world)
  refine ⟨rfl, ?_, ?_, ?_, ?_, ?_⟩
  · simpa [Shutdown.Listen, NewShutdown] using h1
  · simpa [Shutdown.Listen, NewShutdown] using h2
  · simpa [Shutdown.Listen, NewShutdown] using h3
  · intro number name result hmem
    have : ((NewShutdown world).register regs).Listen.trace = [] := by
      simpa [Shutdown.Listen, NewShutdown] using h5
    rw [this] at hmem
    cases hmem
  · show _ ∧ _ ∧ _ ∧ _
    refine ⟨?_, ?_, ?_, ?_⟩
    · simpa [Shutdown.Listen, NewShutdown] using h4
    · simpa [Shutdown.Listen, NewShutdown] using h5
    · simpa [Shutdown.Listen, NewShutdown] using h6
    · simpa [Shutdown.Listen, NewShutdown] using h7

/-- A service goroutine that is pending while the main goroutine waits: it calls its
action under its registered name, and is no longer pending. -/
theorem Shutdown.workerStep_pending (regs : List (String × (W → W × Option Error)))
    (s : Shutdown W) (number : Nat) (hinv : Shutdown.Inv regs s)
    (hphase : s.phase = ListenPhase.waiting) (hmem : number ∈ s.pending) :
    ∃ s1, s.workerStep number = Except.ok s1 ∧ Shutdown.Inv regs s1 ∧
      s1.phase = ListenPhase.waiting ∧ s1.pending = s.pending.erase number ∧
      actionNumbers s1.trace = actionNumbers s.trace ++ [number] := by
  obtain ⟨hc, hn, ha, hq, hm, hp⟩ := hinv
  rw [hphase] at hp
  obtain ⟨hdone, hnoclose, hwg, hperm⟩ := hp
  have hrange : number ∈ List.range' 1 regs.length :=
    hperm.subset (List.mem_append_right _ hmem)
  have hbounds : 1 ≤ number ∧ number < 1 + regs.length := by
    simpa [List.mem_range'_1] using hrange
  have hlen1 : number - 1 < s.names.length := by rw [hn]; simp; omega
  have hlen2 : number - 1 < s.stopActions.length := by rw [ha]; simp; omega
  have hname : s.names.get? (number - 1) = some (s.names.get ⟨number - 1, hlen1⟩) := by
    simp
  have hact : s.stopActions.get? (number - 1)
      = some (s.stopActions.get ⟨number - 1, hlen2⟩) := by
    simp
  have hpos : 0 < s.pending.length := List.length_pos_of_mem hmem
  have hwg1 : ¬ s.wg - 1 < 0 := by rw [hwg]; omega
  refine ⟨({ s with
      pending := s.pending.erase number
      world := ((s.stopActions.get ⟨number - 1, hlen2⟩) s.world).1
      trace := s.trace ++ [ShutdownEvent.action number (s.names.get ⟨number - 1, hlen1⟩)
        ((s.stopActions.get ⟨number - 1, hlen2⟩) s.world).2]
      wg := s.wg - 1 }), ?_, ?_, ?_, ?_, ?_⟩
  · simp only [Shutdown.workerStep, hmem, if_true, hname, hact, hwg1, if_false]
  · refine ⟨hc, hn, ha, hq, ?_, ?_⟩
    · intro num name result hin
      rcases List.mem_append.mp hin with hold | hnew
      · exact hm num name result hold
      · simp only [List.mem_singleton] at hnew
        injection hnew with h1 h2 _
        subst h1
        subst h2
        exact ⟨hbounds.1, hname⟩
    · simp only [hphase]
      refine ⟨hdone, ?_, ?_, ?_⟩
      · intro hin
        rcases List.mem_append.mp hin with hold | hnew
        · exact hnoclose hold
        · simp at hnew
      · show s.wg - 1 = ((s.pending.erase number).length : Int)
        rw [List.length_erase_of_mem hmem, hwg]
        omega
      · show (actionNumbers (s.trace ++ [ShutdownEvent.action number _ _])
            ++ s.pending.erase number).Perm _
        rw [actionNumbers_append]
        refine List.Perm.trans ?_ hperm
        simp only [actionNumbers, List.append_assoc, List.singleton_append]
        exact List.Perm.append_left _ (List.perm_cons_erase hmem).symm
  · exact hphase
  · rfl
  · simp [actionNumbers_append, actionNumbers]

/-- A service goroutine that is not pending does nothing when scheduled. -/
theorem Shutdown.workerStep_absent (s : Shutdown W) (number : Nat)
    (hmem : number ∉ s.pending) : s.workerStep number = Except.ok s := by
  simp [Shutdown.workerStep, hmem]

/-- Every action keeps the invariant, and none panics. -/
theorem Shutdown.step_Inv (regs : List (String × (W → W × Option Error)))
    (s : Shutdown W) (act : ShutdownAction) (hinv : Shutdown.Inv regs s) :
    ∃ s1, s.step act = Except.ok s1 ∧ Shutdown.Inv regs s1 := by
  cases act with
  | notifyStop =>
    refine ⟨{ s with cancelled := true }, ?_, hinv⟩
    simp [Shutdown.step, Shutdown.NotifyStop, hinv.1]
  | signal => exact ⟨{ s with signalled := true }, rfl, hinv⟩
  | worker number =>
    by_cases hmem : number ∈ s.pending
    · cases hphase : s.phase with
      | waiting =>
        obtain ⟨s1, hstep, hinv1, _, _, _⟩ :=
          Shutdown.workerStep_pending regs s number hinv hphase hmem
        exact ⟨s1, hstep, hinv1⟩
      | idle =>
        obtain ⟨_, _, _, _, _, hp⟩ := hinv
        rw [hphase] at hp
        exact hp.elim
      | selecting =>
        obtain ⟨_, _, _, _, _, hp⟩ := hinv
        rw [hphase] at hp
        rw [hp.2.2.1] at hmem
        cases hmem
      | finished =>
        obtain ⟨_, _, _, _, _, hp⟩ := hinv
        rw [hphase] at hp
        rw [hp.2.1] at hmem
        cases hmem
    · exact ⟨s, Shutdown.workerStep_absent s number hmem, hinv⟩
  | main =>
    obtain ⟨hc, hn, ha, hq, hm, hp⟩ := hinv
    cases hphase : s.phase with
    | idle =>
      rw [hphase] at hp
      exact hp.elim
    | finished =>
      refine ⟨s, ?_, hc, hn, ha, hq, hm, hp⟩
      simp [Shutdown.step, Shutdown.mainStep, hphase]
    | selecting =>
      rw [hphase] at hp
      obtain ⟨hdone, htrace, hpend, hwg⟩ := hp
      by_cases htrig : (s.signalled || s.cancelled) = true
      · refine ⟨{ s with phase := ListenPhase.waiting, wg := (s.stopQty : Int),
                          pending := List.range' 1 s.stopQty }, ?_, hc, hn, ha, hq, hm, ?_⟩
        · simp [Shutdown.step, Shutdown.mainStep, hphase, htrig]
        · show (_ ∧ _ ∧ _ ∧ _)
          refine ⟨hdone, ?_, ?_, ?_⟩
          · show ShutdownEvent.closeDone ∉ s.trace
            rw [htrace]
            simp
          · show (s.stopQty : Int) = ((List.range' 1 s.stopQty).length : Int)
            simp
          · show (actionNumbers s.trace ++ List.range' 1 s.stopQty).Perm _
            rw [htrace, hq]
            simp [actionNumbers]
      · refine ⟨s, ?_, hc, hn, ha, hq, hm, ?_⟩
        · simp [Shutdown.step, Shutdown.mainStep, hphase, htrig]
        · rw [hphase]
          exact ⟨hdone, htrace, hpend, hwg⟩
    | waiting =>
      rw [hphase] at hp
      obtain ⟨hdone, hnoclose, hwg, hperm⟩ := hp
      by_cases hzero : s.wg = 0
      · have hpend : s.pending = [] := by
          rw [hwg] at hzero
          exact List.length_eq_zero.mp (by omega)
        refine ⟨{ s with phase := ListenPhase.finished, done := Chan.isClosed,
                          trace := s.trace ++ [ShutdownEvent.closeDone] }, ?_,
          hc, hn, ha, hq, ?_, ?_⟩
        · simp [Shutdown.step, Shutdown.mainStep, hphase, hzero, hdone, Chan.close]
        · intro num name result hin
          rcases List.mem_append.mp hin with hold | hnew
          · exact hm num name result hold
          · simp at hnew
        · show (_ ∧ _ ∧ _)
          refine ⟨rfl, hpend, s.trace, rfl, hnoclose, ?_⟩
          rw [hpend] at hperm
          simpa using hperm
      · refine ⟨s, ?_, hc, hn, ha, hq, hm, ?_⟩
        · simp [Shutdown.step, Shutdown.mainStep, hphase, hzero]
        · rw [hphase]
          exact ⟨hdone, hnoclose, hwg, hperm⟩

/-- Every schedule keeps the invariant, and none panics. -/
theorem Shutdown.run_Inv (regs : List (String × (W → W × Option Error)))
    (sched : List ShutdownAction) (s : Shutdown W) (hinv : Shutdown.Inv regs s) :
    ∃ s1, s.run sched = Except.ok s1 ∧ Shutdown.Inv regs s1 := by
  induction sched generalizing s with
  | nil => exact ⟨s, rfl, hinv⟩
  | cons act rest ih =>
    obtain ⟨s1, hstep, hinv1⟩ := Shutdown.step_Inv regs s act hinv
    obtain ⟨s2, hrun, hinv2⟩ := ih s1 hinv1
    exact ⟨s2, by simp only [Shutdown.run, hstep]; exact hrun, hinv2⟩

theorem Shutdown.run_append (xs ys : List ShutdownAction) (s s1 : Shutdown W)
    (h : s.run xs = Except.ok s1) : s.run (xs ++ ys) = s1.run ys := by
  induction xs generalizing s with
  | nil =>
    simp only [Shutdown.run] at h
    injection h with h
    subst h
    rfl
  | cons act rest ih =>
    simp only [Shutdown.run, List.cons_append] at h ⊢
    cases hstep : s.step act with
    | error p => rw [hstep] at h; cases h
    | ok s2 =>
      rw [hstep] at h
      exact ih s2 h

/-- While the main goroutine waits, scheduling the pending service goroutines in any order
runs them all. -/
theorem Shutdown.workers_drain (regs : List (String × (W → W × Option Error)))
    (order : List Nat) (s : Shutdown W) (hinv : Shutdown.Inv regs s)
    (hphase : s.phase = ListenPhase.waiting) (hperm : order.Perm s.pending) :
    ∃ s1, s.run (order.map ShutdownAction.worker) = Except.ok s1 ∧ Shutdown.Inv regs s1 ∧
      s1.phase = ListenPhase.waiting ∧ s1.pending = [] ∧
      actionNumbers s1.trace = actionNumbers s.trace ++ order := by
  induction order generalizing s with
  | nil =>
    refine ⟨s, rfl, hinv, hphase, ?_, by simp⟩
    exact List.Perm.eq_nil hperm.symm
  | cons number rest ih =>
    have hmem : number ∈ s.pending := hperm.subset (List.mem_cons_self _ _)
    obtain ⟨s1, hstep, hinv1, hphase1, hpend1, hnums1⟩ :=
      Shutdown.workerStep_pending regs s number hinv hphase hmem
    have hrest : rest.Perm s1.pending := by
      rw [hpend1]
      exact (List.cons_perm_iff_perm_erase.mp hperm).2
    obtain ⟨s2, hrun, hinv2, hphase2, hpend2, hnums2⟩ := ih s1 hinv1 hphase1 hrest
    refine ⟨s2, ?_, hinv2, hphase2, hpend2, ?_⟩
    · simp only [List.map_cons, Shutdown.run, Shutdown.step, hstep]
      exact hrun
    · rw [hnums2, hnums1]
      simp

/-- Once a trigger is there: the main goroutine starts the services, they run in any
order, and the main goroutine then closes `done`. -/
theorem Shutdown.triggered_run (regs : List (String × (W → W × Option Error)))
    (s : Shutdown W) (order : List Nat) (hinv : Shutdown.Inv regs s)
    (hphase : s.phase = ListenPhase.selecting)
    (htrig : (s.signalled || s.cancelled) = true)
    (hperm : order.Perm (List.range' 1 regs.length)) :
    ∃ s1, s.run (ShutdownAction.main :: (order.map ShutdownAction.worker
        ++ [ShutdownAction.main])) = Except.ok s1 ∧
      s1.waitReturns = true ∧ actionNumbers s1.trace = order := by
  have hmain : s.step ShutdownAction.main = Except.ok
      { s with phase := ListenPhase.waiting, wg := (s.stopQty : Int),
               pending := List.range' 1 s.stopQty } := by
    simp [Shutdown.step, Shutdown.mainStep, hphase, htrig]
  obtain ⟨s2, hstep2, hinv2⟩ := Shutdown.step_Inv regs s ShutdownAction.main hinv
  rw [hmain] at hstep2
  injection hstep2 with hs2
  have htrace0 : s.trace = [] := by
    obtain ⟨_, _, _, _, _, hp⟩ := hinv
    rw [hphase] at hp
    exact hp.2.1
  have hq : s.stopQty = regs.length := hinv.2.2.2.1
  have hpend2 : order.Perm s2.pending := by
    rw [← hs2]
    show order.Perm (List.range' 1 s.stopQty)
    rw [hq]
    exact hperm
  have hphase2 : s2.phase = ListenPhase.waiting := by rw [← hs2]
  have htrace2 : s2.trace = [] := by rw [← hs2]; exact htrace0
  obtain ⟨s3, hrun3, hinv3, hphase3, hpend3, hnums3⟩ :=
    Shutdown.workers_drain regs order s2 hinv2 hphase2 hpend2
  obtain ⟨_, _, _, _, _, hp3⟩ := hinv3
  rw [hphase3] at hp3
  obtain ⟨hdone3, _, hwg3, _⟩ := hp3
  have hzero : s3.wg = 0 := by rw [hwg3, hpend3]; rfl
  refine ⟨{ s3 with phase := ListenPhase.finished, done := Chan.isClosed,
                    trace := s3.trace ++ [ShutdownEvent.closeDone] }, ?_, ?_, ?_⟩
  · simp only [Shutdown.run, hmain]
    rw [hs2, Shutdown.run_append _ _ s2 s3 hrun3]
    simp [Shutdown.run, Shutdown.step, Shutdown.mainStep, hphase3, hzero, hdone3, Chan.close]
  · simp [Shutdown.waitReturns]
  · show actionNumbers (s3.trace ++ [ShutdownEvent.closeDone]) = order
    rw [actionNumbers_append, hnums3, htrace2]
    simp [actionNumbers]

theorem actionEvents_append (xs ys : List ShutdownEvent) :
    actionEvents (xs ++ ys) = actionEvents xs ++ actionEvents ys := by
  simp [actionEvents]

/-- One more service at the end of the order. -/
theorem servicesInOrder_snoc (regs : List (String × (W → W × Option Error)))
    (order : List Nat) (number : Nat) (pair : String × (W → W × Option Error)) (w0 : W)
    (hpos : 1 ≤ number) (hget : regs.get? (number - 1) = some pair) :
    servicesInOrder regs (order ++ [number]) w0 =
      ((pair.2 (servicesInOrder regs order w0).1).1,
        (servicesInOrder regs order w0).2 ++
          [ShutdownEvent.action number pair.1 (pair.2 (servicesInOrder regs order w0).1).2]) := by
  have hne : number ≠ 0 := by omega
  have hget1 : regs[number - 1]? = some pair := by simpa using hget
  induction order generalizing w0 with
  | nil => simp [servicesInOrder, hne, hget1]
  | cons first rest ih =>
    by_cases h0 : first = 0
    · simp only [List.cons_append, servicesInOrder, h0, if_true]
      exact ih w0
    · cases hfirst : regs.get? (first - 1) with
      | none =>
        simp only [List.cons_append, servicesInOrder, h0, if_false, hfirst]
        exact ih w0
      | some other =>
        simp only [List.cons_append, servicesInOrder, h0, if_false, hfirst]
        have hrest := ih (other.2 w0).1
        simp only [List.append_eq] at hrest ⊢
        rw [hrest]

/-- A pending service goroutine, in full: it calls the action registered under its number,
with the name registered with it, on the world it finds. -/
theorem Shutdown.workerStep_eq (regs : List (String × (W → W × Option Error)))
    (s : Shutdown W) (number : Nat) (hinv : Shutdown.Inv regs s)
    (hphase : s.phase = ListenPhase.waiting) (hmem : number ∈ s.pending) :
    ∃ pair, 1 ≤ number ∧ regs.get? (number - 1) = some pair ∧
      s.workerStep number = Except.ok
        { s with pending := s.pending.erase number,
                 world := (pair.2 s.world).1,
                 trace := s.trace ++ [ShutdownEvent.action number pair.1 (pair.2 s.world).2],
                 wg := s.wg - 1 } := by
  obtain ⟨hc, hn, ha, hq, hm, hp⟩ := hinv
  rw [hphase] at hp
  obtain ⟨hdone, hnoclose, hwg, hperm⟩ := hp
  have hrange : number ∈ List.range' 1 regs.length :=
    hperm.subset (List.mem_append_right _ hmem)
  have hbounds : 1 ≤ number ∧ number < 1 + regs.length := by
    simpa [List.mem_range'_1] using hrange
  have hlt : number - 1 < regs.length := by omega
  have hreg : regs.get? (number - 1) = some (regs.get ⟨number - 1, hlt⟩) := by simp
  have hname : s.names.get? (number - 1) = some (regs.get ⟨number - 1, hlt⟩).1 := by
    rw [hn]
    simp [hlt]
  have hact : s.stopActions.get? (number - 1) = some (regs.get ⟨number - 1, hlt⟩).2 := by
    rw [ha]
    simp [hlt]
  have hpos : 0 < s.pending.length := List.length_pos_of_mem hmem
  have hwg1 : ¬ s.wg - 1 < 0 := by rw [hwg]; omega
  refine ⟨regs.get ⟨number - 1, hlt⟩, hbounds.1, hreg, ?_⟩
  simp only [Shutdown.workerStep, hmem, if_true, hname, hact, hwg1, if_false]

/-- Every action keeps the world and the trace in step with the registered actions. -/
theorem Shutdown.step_Tracks (regs : List (String × (W → W × Option Error))) (w0 : W)
    (s s1 : Shutdown W) (act : ShutdownAction) (hinv : Shutdown.Inv regs s)
    (htr : Shutdown.Tracks regs w0 s) (hstep : s.step act = Except.ok s1) :
    Shutdown.Tracks regs w0 s1 := by
  cases act with
  | notifyStop =>
    simp only [Shutdown.step, Shutdown.NotifyStop, hinv.1, if_true] at hstep
    injection hstep with hstep
    subst hstep
    exact htr
  | signal =>
    simp only [Shutdown.step] at hstep
    injection hstep with hstep
    subst hstep
    exact htr
  | main =>
    simp only [Shutdown.step, Shutdown.mainStep] at hstep
    split at hstep
    · injection hstep with hstep
      subst hstep
      exact htr
    · injection hstep with hstep
      subst hstep
      exact htr
    · split at hstep
      · injection hstep with hstep
        subst hstep
        exact htr
      · injection hstep with hstep
        subst hstep
        exact htr
    · split at hstep
      · split at hstep
        · cases hstep
        · injection hstep with hstep
          subst hstep
          obtain ⟨hw, he⟩ := htr
          constructor
          · show s.world = _
            rw [actionNumbers_append]
            simpa [actionNumbers] using hw
          · show actionEvents (s.trace ++ [ShutdownEvent.closeDone]) = _
            rw [actionEvents_append, actionNumbers_append]
            simpa [actionNumbers, actionEvents] using he
      · injection hstep with hstep
        subst hstep
        exact htr
  | worker number =>
    by_cases hmem : number ∈ s.pending
    · have hphase : s.phase = ListenPhase.waiting := by
        obtain ⟨_, _, _, _, _, hp⟩ := hinv
        cases hph : s.phase with
        | waiting => rfl
        | idle => rw [hph] at hp; exact hp.elim
        | selecting =>
          rw [hph] at hp
          rw [hp.2.2.1] at hmem
          cases hmem
        | finished =>
          rw [hph] at hp
          rw [hp.2.1] at hmem
          cases hmem
      obtain ⟨pair, hpos, hget, heq⟩ := Shutdown.workerStep_eq regs s number hinv hphase hmem
      simp only [Shutdown.step] at hstep
      rw [heq] at hstep
      injection hstep with hstep
      subst hstep
      obtain ⟨hw, he⟩ := htr
      have hsnoc := servicesInOrder_snoc regs (actionNumbers s.trace) number pair w0 hpos hget
      constructor
      · show (pair.2 s.world).1 = _
        rw [actionNumbers_append]
        simp only [actionNumbers]
        rw [hsnoc, hw]
      · show actionEvents (s.trace ++ [ShutdownEvent.action number pair.1 _]) = _
        rw [actionEvents_append, actionNumbers_append]
        simp only [actionNumbers]
        rw [hsnoc, he, hw]
        simp [actionEvents]
    · simp only [Shutdown.step, Shutdown.workerStep_absent s number hmem] at hstep
      injection hstep with hstep
      subst hstep
      exact htr

/-- Every schedule keeps the invariant and keeps the world and the trace in step with the
registered actions, and none panics. -/
theorem Shutdown.run_Tracks (regs : List (String × (W → W × Option Error))) (w0 : W)
    (sched : List ShutdownAction) (s : Shutdown W) (hinv : Shutdown.Inv regs s)
    (htr : Shutdown.Tracks regs w0 s) :
    ∃ s1, s.run sched = Except.ok s1 ∧ Shutdown.Inv regs s1 ∧ Shutdown.Tracks regs w0 s1 := by
  induction sched generalizing s with
  | nil => exact ⟨s, rfl, hinv, htr⟩
  | cons act rest ih =>
    obtain ⟨s1, hstep, hinv1⟩ := Shutdown.step_Inv regs s act hinv
    have htr1 := Shutdown.step_Tracks regs w0 s s1 act hinv htr hstep
    obtain ⟨s2, hrun, hinv2, htr2⟩ := ih s1 hinv1 htr1
    exact ⟨s2, by simp only [Shutdown.run, hstep]; exact hrun, hinv2, htr2⟩

/-- Right after the registrations and `Listen` nothing has been called. -/
theorem Shutdown.Tracks_init (regs : List (String × (W → W × Option Error))) (world : W) :
    Shutdown.Tracks regs world ((NewShutdown world).register regs).Listen := by
  have htrace : ((NewShutdown world).register regs).Listen.trace = [] := by
    have h := (Shutdown.Inv_init regs world).2.2.2.2.2
    exact h.2.1
  have hworld : ∀ (rs : List (String × (W → W × Option Error))) (s : Shutdown W),
      (s.register rs).world = s.world := by
    intro rs
    induction rs with
    | nil => intro s; rfl
    | cons pair rest ih =>
      intro s
      simp only [Shutdown.register]
      rw [ih]
      rfl
  constructor
  · rw [htrace]
    show ((NewShutdown world).register regs).world = world
    rw [hworld]
    rfl
  · rw [htrace]
    simp [actionEvents, actionNumbers, servicesInOrder]

/-- C12. For every list of registered (name, action) pairs, whatever the actions return,
and every initial world.  First, along every schedule of triggers, moves of the goroutine
of `Listen` and runs of the service goroutines, nothing panics, no stop action is called
twice, every call of a stop action bears the name registered with it, the calls made are
the calls of the registered actions themselves, each on the world the call before left
(the world and the logged results are the ones of those calls), and if `Wait()` can
return (the done signal is closed) then the close is the last event and before it every
registered action has been called exactly once.  Second, once a trigger has come
(`NotifyStop` or a signal) and the goroutine of `Listen` and then the service goroutines
have been scheduled, in whatever order `order` of the services, the registered actions
have been called in that order, each once, a failing one not stopping the others, and
only then is the done signal closed. -/
theorem Shutdown.run_spec (regs : List (String × (W → W × Option Error))) (world : W) :
    (∀ sched : List ShutdownAction,
      ∃ s, ((NewShutdown world).register regs).Listen.run sched = Except.ok s ∧
        (actionNumbers s.trace).Nodup ∧
        namesMatch (regs.map Prod.fst) s.trace ∧
        s.world = (servicesInOrder regs (actionNumbers s.trace) world).1 ∧
        actionEvents s.trace = (servicesInOrder regs (actionNumbers s.trace) world).2 ∧
        (s.waitReturns = true →
          ∃ pre, s.trace = pre ++ [ShutdownEvent.closeDone] ∧
            ShutdownEvent.closeDone ∉ pre ∧
            (actionNumbers pre).Perm (List.range' 1 regs.length))) ∧
    (∀ (trigger : ShutdownAction) (order : List Nat),
      trigger = ShutdownAction.notifyStop ∨ trigger = ShutdownAction.signal →
      order.Perm (List.range' 1 regs.length) →
      ∃ s, ((NewShutdown world).register regs).Listen.run
          (trigger :: ShutdownAction.main :: (order.map ShutdownAction.worker
            ++ [ShutdownAction.main])) = Except.ok s ∧
        s.waitReturns = true ∧ actionNumbers s.trace = order ∧
        s.world = (servicesInOrder regs order world).1 ∧
        s.trace = (servicesInOrder regs order world).2 ++ [ShutdownEvent.closeDone]) := by
  have hinit := Shutdown.Inv_init regs world
  have htinit := Shutdown.Tracks_init regs world
  have hsafe : ∀ sched : List ShutdownAction,
      ∃ s, ((NewShutdown world).register regs).Listen.run sched = Except.ok s ∧
        (actionNumbers s.trace).Nodup ∧
        namesMatch (regs.map Prod.fst) s.trace ∧
        s.world = (servicesInOrder regs (actionNumbers s.trace) world).1 ∧
        actionEvents s.trace = (servicesInOrder regs (actionNumbers s.trace) world).2 ∧
        (s.waitReturns = true →
          ∃ pre, s.trace = pre ++ [ShutdownEvent.closeDone] ∧
            ShutdownEvent.closeDone ∉ pre ∧
            (actionNumbers pre).Perm (List.range' 1 regs.length)) := by
    intro sched
    obtain ⟨s, hrun, hinv, htr⟩ := Shutdown.run_Tracks regs world sched _ hinit htinit
    obtain ⟨_, hn, _, _, hm, hp⟩ := hinv
    refine ⟨s, hrun, ?_, by rw [← hn]; exact hm, htr.1, htr.2, ?_⟩
    · cases hphase : s.phase with
      | idle => rw [hphase] at hp; exact hp.elim
      | selecting =>
        rw [hphase] at hp
        rw [hp.2.1]
        simp [actionNumbers]
      | waiting =>
        rw [hphase] at hp
        exact (hp.2.2.2.nodup_iff.mpr (List.nodup_range' 1 regs.length)).of_append_left
      | finished =>
        rw [hphase] at hp
        obtain ⟨_, _, pre, htrace, _, hperm⟩ := hp
        rw [htrace, actionNumbers_append]
        simpa [actionNumbers] using hperm.nodup_iff.mpr (List.nodup_range' 1 regs.length)
    · intro hwait
      have hclosed : s.done = Chan.isClosed := by simpa [Shutdown.waitReturns] using hwait
      cases hphase : s.phase with
      | idle => rw [hphase] at hp; exact hp.elim
      | selecting =>
        rw [hphase] at hp
        rw [hp.1] at hclosed
        cases hclosed
      | waiting =>
        rw [hphase] at hp
        rw [hp.1] at hclosed
        cases hclosed
      | finished =>
        rw [hphase] at hp
        exact hp.2.2
  have hlive : ∀ (trigger : ShutdownAction) (order : List Nat),
      trigger = ShutdownAction.notifyStop ∨ trigger = ShutdownAction.signal →
      order.Perm (List.range' 1 regs.length) →
      ∃ s, ((NewShutdown world).register regs).Listen.run
          (trigger :: ShutdownAction.main :: (order.map ShutdownAction.worker
            ++ [ShutdownAction.main])) = Except.ok s ∧
        s.waitReturns = true ∧ actionNumbers s.trace = order := by
    intro trigger order htrigger hperm
    have hphase0 : ((NewShutdown world).register regs).Listen.phase = ListenPhase.selecting :=
      rfl
    rcases htrigger with ht | ht
    · subst ht
      obtain ⟨s1, hrun, hwait, hnums⟩ := Shutdown.triggered_run regs
        { ((NewShutdown world).register regs).Listen with cancelled := true } order
        hinit hphase0 (by simp) hperm
      refine ⟨s1, ?_, hwait, hnums⟩
      simp only [Shutdown.run, Shutdown.step, Shutdown.NotifyStop, hinit.1, if_true]
      exact hrun
    · subst ht
      obtain ⟨s1, hrun, hwait, hnums⟩ := Shutdown.triggered_run regs
        { ((NewShutdown world).register regs).Listen with signalled := true } order
        hinit hphase0 (by simp) hperm
      refine ⟨s1, ?_, hwait, hnums⟩
      simp only [Shutdown.run, Shutdown.step]
      exact hrun
  refine ⟨hsafe, ?_⟩
  intro trigger order htrigger hperm
  obtain ⟨s1, hrun1, hwait, hnums⟩ := hlive trigger order htrigger hperm
  obtain ⟨s2, hrun2, _, _, hworld, hevents, hdone⟩ := hsafe
    (trigger :: ShutdownAction.main :: (order.map ShutdownAction.worker
      ++ [ShutdownAction.main]))
  rw [hrun1] at hrun2
  injection hrun2 with hsame
  subst hsame
  obtain ⟨pre, htrace, hnoclose, _⟩ := hdone hwait
  refine ⟨s1, hrun1, hwait, hnums, by rw [hworld, hnums], ?_⟩
  have hpre : actionEvents s1.trace = pre := by
    rw [htrace, actionEvents_append]
    have h1 : actionEvents pre = pre := by
      simp only [actionEvents]
      rw [List.filter_eq_self]
      intro ev hev
      have hne : ev ≠ ShutdownEvent.closeDone := fun h => hnoclose (h ▸ hev)
      simpa using hne
    rw [h1]
    simp [actionEvents]
  rw [← hnums, ← hevents, hpre]
  exact htrace

/-- C12 at the three sample services, the second of which fails: after `NotifyStop` the
services run in the order 3, 1, 2; each registered action has acted on the world
(`0 + 100 + 1 + 10`), the failure of `mq` is logged and stops nothing, and `Wait()` can
return. -/
theorem Shutdown.run_spec_witness :
    (servicesInOrder sampleServices [3, 1, 2] 0) =
      (111, [ShutdownEvent.action 3 "http" none, ShutdownEvent.action 1 "db" none,
             ShutdownEvent.action 2 "mq" (some (Error.other "mq down"))]) ∧
    ∃ s, sampleShutdown.run
        [ShutdownAction.notifyStop, ShutdownAction.main, ShutdownAction.worker 3,
         ShutdownAction.worker 1, ShutdownAction.worker 2, ShutdownAction.main]
        = Except.ok s ∧
      s.waitReturns = true ∧ actionNumbers s.trace = [3, 1, 2] ∧
      s.world = (servicesInOrder sampleServices [3, 1, 2] 0).1 ∧
      s.trace = (servicesInOrder sampleServices [3, 1, 2] 0).2 ++ [ShutdownEvent.closeDone] :=
  ⟨by decide,
    (Shutdown.run_spec sampleServices 0).2 ShutdownAction.notifyStop [3, 1, 2] (Or.inl rfl)
      (by decide)⟩

/-! ## C15: the responder `WaitPingSendPong` -/

/-- One more answered ping in front. -/
theorem pongOutcome_cons (rest : List PingEvent) (new : List (Option Error))
    (result : Option (Option Error)) (h : pongOutcome rest new result) :
    pongOutcome (PingEvent.ping none :: rest) (none :: new) result := by
  obtain ⟨hlen, htake, hnil, hblocked, hreturned⟩ := h
  refine ⟨by simpa using hlen, ?_, hnil, ?_, ?_⟩
  · simp [List.replicate_succ, htake]
  · intro hres
    obtain ⟨h1, h2⟩ := hblocked hres
    refine ⟨by simp [h1], ?_⟩
    intro r hr
    rcases List.mem_cons.mp hr with h0 | h0
    · exact h0
    · exact h2 r h0
  · intro err hres
    rcases hreturned err hres with ⟨pre, e, h1, h2, h3⟩ | ⟨h1, h2, h3⟩ | ⟨h1, e, h2, h3⟩
    · refine Or.inl ⟨none :: pre, e, by simp [h1], ?_, h3⟩
      intro r hr
      rcases List.mem_cons.mp hr with h0 | h0
      · exact h0
      · exact h2 r h0
    · refine Or.inr (Or.inl ⟨?_, by simpa using h2, h3⟩)
      intro r hr
      rcases List.mem_cons.mp hr with h0 | h0
      · exact h0
      · exact h1 r h0
    · refine Or.inr (Or.inr ⟨?_, e, by simpa using h2, h3⟩)
      intro r hr
      rcases List.mem_cons.mp hr with h0 | h0
      · exact h0
      · exact h1 r h0

/-- The loop of the responder while the stop predicate stays false. -/
theorem waitPingLoop_spec (sendPong : W → W × Option Error) (isStop : Nat → Bool)
    (hstop : ∀ n, isStop n = false) (events : List PingEvent) (n : Nat) (world : W)
    (pongs : List (Option Error)) :
    ∃ new, (waitPingLoop sendPong isStop n world pongs events).pongs = pongs ++ new ∧
      pongOutcome events new (waitPingLoop sendPong isStop n world pongs events).result := by
  induction events generalizing n world pongs with
  | nil =>
    refine ⟨[], by simp [waitPingLoop, hstop], ?_⟩
    simp [waitPingLoop, hstop, pongOutcome]
  | cons event rest ih =>
    cases event with
    | timerExpiry =>
      refine ⟨[], by simp [waitPingLoop, hstop], ?_⟩
      simp [waitPingLoop, hstop, pongOutcome]
    | ping handlerResult =>
      cases handlerResult with
      | some e =>
        refine ⟨[], by simp [waitPingLoop, hstop], ?_⟩
        simp [waitPingLoop, hstop, pongOutcome]
      | none =>
        cases hr : (sendPong world).2 with
        | some e =>
          refine ⟨[some e], by simp [waitPingLoop, hstop, hr], ?_⟩
          simp only [waitPingLoop, hstop, hr]
          refine ⟨by simp, by simp, by simp, by simp, ?_⟩
          intro err herr
          refine Or.inl ⟨[], e, by simp, by simp, ?_⟩
          simp at herr
          exact herr.symm
        | none =>
          obtain ⟨new, hpongs, hout⟩ := ih (n + 1) (sendPong world).1 (pongs ++ [none])
          refine ⟨none :: new, ?_, ?_⟩
          · simp only [waitPingLoop, hstop, hr]
            simpa using hpongs
          · simp only [waitPingLoop, hstop, hr]
            exact pongOutcome_cons rest new _ hout

/-- The loop of the responder returns nil only on a call of the stop predicate that
returned true. -/
theorem waitPingLoop_nil (sendPong : W → W × Option Error) (isStop : Nat → Bool)
    (events : List PingEvent) (n : Nat) (world : W) (pongs : List (Option Error))
    (h : (waitPingLoop sendPong isStop n world pongs events).result = some none) :
    ∃ k, isStop k = true ∧
      (waitPingLoop sendPong isStop n world pongs events).pongs.length + n
        = pongs.length + k := by
  induction events generalizing n world pongs with
  | nil =>
    cases hs : isStop n
    · simp [waitPingLoop, hs] at h
    · exact ⟨n, hs, by simp [waitPingLoop, hs]⟩
  | cons event rest ih =>
    cases hs : isStop n
    · cases event with
      | timerExpiry => simp [waitPingLoop, hs] at h
      | ping handlerResult =>
        cases handlerResult with
        | some e => simp [waitPingLoop, hs] at h
        | none =>
          cases hr : (sendPong world).2 with
          | some e => simp [waitPingLoop, hs, hr] at h
          | none =>
            simp only [waitPingLoop, hs, hr] at h ⊢
            obtain ⟨k, hk, hlen⟩ := ih (n + 1) (sendPong world).1 (pongs ++ [none]) h
            refine ⟨k, hk, ?_⟩
            simp at hlen ⊢
            omega
    · exact ⟨n, hs, by simp [waitPingLoop, hs]⟩

theorem callsInOrder_length (fs : List (W → W × Option Error)) (w : W) :
    (callsInOrder fs w).2.length = fs.length := by
  induction fs generalizing w with
  | nil => simp [callsInOrder]
  | cons f rest ih => simp [callsInOrder, ih]

/-- The pongs of the loop are the results of as many calls of `sendPong`, one after
another from the world the loop started on, and its world is the one they leave. -/
theorem waitPingLoop_calls (sendPong : W → W × Option Error) (isStop : Nat → Bool)
    (events : List PingEvent) (n : Nat) (world : W) (pongs : List (Option Error)) :
    ∃ k, (waitPingLoop sendPong isStop n world pongs events).pongs
        = pongs ++ (callsInOrder (List.replicate k sendPong) world).2 ∧
      (waitPingLoop sendPong isStop n world pongs events).world
        = (callsInOrder (List.replicate k sendPong) world).1 := by
  induction events generalizing n world pongs with
  | nil =>
    refine ⟨0, ?_, ?_⟩ <;> cases hs : isStop n <;> simp [waitPingLoop, hs, callsInOrder]
  | cons event rest ih =>
    cases hs : isStop n
    · cases event with
      | timerExpiry => exact ⟨0, by simp [waitPingLoop, hs, callsInOrder],
          by simp [waitPingLoop, hs, callsInOrder]⟩
      | ping handlerResult =>
        cases handlerResult with
        | some e => exact ⟨0, by simp [waitPingLoop, hs, callsInOrder],
            by simp [waitPingLoop, hs, callsInOrder]⟩
        | none =>
          cases hr : (sendPong world).2 with
          | some e =>
            exact ⟨1, by simp [waitPingLoop, hs, hr, callsInOrder, List.replicate],
              by simp [waitPingLoop, hs, hr, callsInOrder, List.replicate]⟩
          | none =>
            obtain ⟨k, hpongs, hworld⟩ := ih (n + 1) (sendPong world).1 (pongs ++ [none])
            refine ⟨k + 1, ?_, ?_⟩
            · simp only [waitPingLoop, hs, hr, Bool.false_eq_true, if_false]
              rw [hpongs]
              simp [callsInOrder, List.replicate, hr]
            · simp only [waitPingLoop, hs, hr, Bool.false_eq_true, if_false]
              rw [hworld]
              simp [callsInOrder, List.replicate]
    · exact ⟨0, by simp [waitPingLoop, hs, callsInOrder],
        by simp [waitPingLoop, hs, callsInOrder]⟩

/-- C15. For `WaitPingSendPong` driven by any list of events, any `sendPong` and any stop
predicate.  The pongs it has sent are calls of `sendPong` itself, made synchronously one
after another from the initial world: the logged results are the results of those calls
and the world is the one they leave.  It returns nil only if a call of the stop predicate
returned true (the call number equal to the number of pongs sent).  And while the stop
predicate stays false: it never returns nil; `sendPong` has been called exactly once for
each of the first `pongs.length` events, which are pings with handler result nil, in
arrival order; it returns a non-nil error exactly at the first terminal event, which is
the first timer expiry ("wait ping timeout"), the first ping with a handler error, or the
first failure of `sendPong`, and has called `sendPong` for no later event; if no terminal
event comes it has answered every ping and is blocked waiting for the next event. -/
theorem WaitPingSendPong_spec (events : List PingEvent) (sendPong : W → W × Option Error)
    (isStop : Nat → Bool) (world : W) :
    (WaitPingSendPong events sendPong isStop world).pongs
      = (callsInOrder
          (List.replicate (WaitPingSendPong events sendPong isStop world).pongs.length sendPong)
          world).2 ∧
    (WaitPingSendPong events sendPong isStop world).world
      = (callsInOrder
          (List.replicate (WaitPingSendPong events sendPong isStop world).pongs.length sendPong)
          world).1 ∧
    ((WaitPingSendPong events sendPong isStop world).result = some none →
      isStop (WaitPingSendPong events sendPong isStop world).pongs.length = true) ∧
    ((∀ n, isStop n = false) →
      pongOutcome events (WaitPingSendPong events sendPong isStop world).pongs
        (WaitPingSendPong events sendPong isStop world).result) := by
  obtain ⟨k, hcalls, hworld⟩ := waitPingLoop_calls sendPong isStop events 0 world []
  have hcalls1 : (WaitPingSendPong events sendPong isStop world).pongs
      = (callsInOrder (List.replicate k sendPong) world).2 := by
    simpa [WaitPingSendPong] using hcalls
  have hk : (WaitPingSendPong events sendPong isStop world).pongs.length = k := by
    rw [hcalls1, callsInOrder_length]
    simp
  refine ⟨?_, ?_, ?_, ?_⟩
  · rw [hk]
    exact hcalls1
  · rw [hk]
    exact hworld
  · intro h
    obtain ⟨j, hj, hlen⟩ := waitPingLoop_nil sendPong isStop events 0 world [] h
    have hj0 : (WaitPingSendPong events sendPong isStop world).pongs.length = j := by
      simpa [WaitPingSendPong] using hlen
    rw [hj0]
    exact hj
  · intro hstop
    obtain ⟨new, hpongs, hout⟩ := waitPingLoop_spec sendPong isStop hstop events 0 world []
    have hnew : (WaitPingSendPong events sendPong isStop world).pongs = new := by
      simpa [WaitPingSendPong] using hpongs
    rw [hnew]
    exact hout

/-- C15 at the sample `sendPong`, which fails on its third call: of four pings the first
two are answered, the pong for the third fails and its error is returned, and the fourth
ping gets no pong. -/
theorem WaitPingSendPong_spec_witness :
    (callsInOrder (List.replicate 3 samplePong) 0)
      = (3, [none, none, some (Error.other "broken pipe")]) ∧
    (WaitPingSendPong [PingEvent.ping none, PingEvent.ping none, PingEvent.ping none,
        PingEvent.ping none] samplePong (fun _ => false) 0).pongs
      = [none, none, some (Error.other "broken pipe")] ∧
    (WaitPingSendPong [PingEvent.ping none, PingEvent.ping none, PingEvent.ping none,
        PingEvent.ping none] samplePong (fun _ => false) 0).result
      = some (some (Error.other "send pong: broken pipe")) ∧
    (WaitPingSendPong [PingEvent.ping none, PingEvent.ping none, PingEvent.timerExpiry,
        PingEvent.ping none] samplePong (fun _ => false) 0).result
      = some (some (Error.other "wait ping timeout")) ∧
    pongOutcome [PingEvent.ping none, PingEvent.ping none, PingEvent.ping none,
        PingEvent.ping none]
      (WaitPingSendPong [PingEvent.ping none, PingEvent.ping none, PingEvent.ping none,
        PingEvent.ping none] samplePong (fun _ => false) 0).pongs
      (WaitPingSendPong [PingEvent.ping none, PingEvent.ping none, PingEvent.ping none,
        PingEvent.ping none] samplePong (fun _ => false) 0).result :=
  ⟨by decide, by decide, by decide, by decide,
    (WaitPingSendPong_spec [PingEvent.ping none, PingEvent.ping none, PingEvent.ping none,
      PingEvent.ping none] samplePong (fun _ => false) 0).2.2.2 (fun _ => rfl)⟩

end Artifex
